import Mathlib

/-!
# Interface module of nao-joint-attention (`src/uimodule_ja.cpp`)

A shallow embedding of the `Interface` module: the config-file reader
(`Impl::readConfig`, a pair of formatted `>>` extractions), the `Impl`
constructor and the four bound methods `onTactilTouched`, `callChild`,
`endSession` and `enableTask`.

The module talks to its host (NAOqi proxies, the logger, the callback mutex)
only through calls; every call the code issues is appended to a trace, and the
host side (whether a call throws `AL::ALError`, what the config file holds, how
`AL::ALValue` converts to `int`) is a parameter of each operation.
-/

namespace Interface

/-! ## Formatted stream extraction (`config >> IP >> port`) -/

/-- Whitespace of the classic "C" locale, as `std::isspace` classifies it. -/
def isspace (c : Char) : Bool :=
  c == ' ' || c == Char.ofNat 9 || c == Char.ofNat 10 || c == Char.ofNat 11 ||
    c == Char.ofNat 12 || c == Char.ofNat 13

/-- Lower bound of a 32-bit `int`. -/
def INT_MIN : Int := -2147483648

/-- Upper bound of a 32-bit `int`. -/
def INT_MAX : Int := 2147483647

/-- An input file stream: the unread characters and the two state bits the
extractions look at. -/
structure IStream where
  buf : List Char
  eofbit : Bool
  failbit : Bool
  deriving DecidableEq, Repr

/-- Opening `std::ifstream config(path)`: a file that cannot be opened leaves the
stream with `failbit` set. -/
def IStream.ofFile : Option String → IStream
  | none => ⟨[], false, true⟩
  | some s => ⟨s.toList, false, false⟩

/-- Discard leading whitespace. -/
def skipws : List Char → List Char
  | [] => []
  | c :: cs => if isspace c then skipws cs else c :: cs

/-- The sentry of a formatted input function: fails on a stream that is not
good, otherwise skips whitespace and fails (setting both bits) when that runs
into the end of the file. -/
def IStream.sentry (s : IStream) : Bool × IStream :=
  if s.eofbit || s.failbit then (false, { s with failbit := true })
  else
    match skipws s.buf with
    | [] => (false, ⟨[], true, true⟩)
    | c :: cs => (true, { s with buf := c :: cs })

/-- The longest prefix without whitespace, and what follows it. -/
def takeWord : List Char → List Char × List Char
  | [] => ([], [])
  | c :: cs => if isspace c then ([], c :: cs) else ((c :: (takeWord cs).1), (takeWord cs).2)

/-- The longest prefix of decimal digits, and what follows it. -/
def takeDigits : List Char → List Char × List Char
  | [] => ([], [])
  | c :: cs => if c.isDigit then ((c :: (takeDigits cs).1), (takeDigits cs).2) else ([], c :: cs)

/-- Value of a run of decimal digits. -/
def digitsValue (ds : List Char) : Nat :=
  ds.foldl (fun n c => 10 * n + (c.toNat - 48)) 0

/-- The extraction `is >> str` for `std::string`: when the sentry fails the
string is left alone, otherwise it is replaced by the next word. -/
def IStream.extractString (s : IStream) (str : String) : String × IStream :=
  match s.sentry with
  | (false, s1) => (str, s1)
  | (true, s1) =>
    (String.mk (takeWord s1.buf).1,
      { buf := (takeWord s1.buf).2
        eofbit := (takeWord s1.buf).2.isEmpty
        failbit := (takeWord s1.buf).1.isEmpty })

/-- An optional sign in front of a number: whether it is a minus, and what
follows. -/
def takeSign : List Char → Bool × List Char
  | '-' :: cs => (true, cs)
  | '+' :: cs => (false, cs)
  | cs => (false, cs)

/-- The extraction `is >> val` for `int`: when the sentry fails the value is
left alone; otherwise an optional sign and a run of digits are read, a field
without digits stores 0 and an out-of-range field stores the nearest bound,
both setting `failbit`. -/
def IStream.extractInt (s : IStream) (val : Int) : Int × IStream :=
  match s.sentry with
  | (false, s1) => (val, s1)
  | (true, s1) =>
    let signed := takeSign s1.buf
    let ds := (takeDigits signed.2).1
    let r := (takeDigits signed.2).2
    if ds.isEmpty then (0, ⟨r, r.isEmpty, true⟩)
    else
      let v : Int := if signed.1 then -(digitsValue ds : Int) else (digitsValue ds : Int)
      if v < INT_MIN then (INT_MIN, ⟨r, r.isEmpty, true⟩)
      else if INT_MAX < v then (INT_MAX, ⟨r, r.isEmpty, true⟩)
      else (v, ⟨r, r.isEmpty, false⟩)

/-- The statement `config >> IP >> port` on the opened file. -/
def extractConfig (file : Option String) (IP : String) (port : Int) : String × Int :=
  let a := (IStream.ofFile file).extractString IP
  let b := a.2.extractInt port
  (a.1, b.1)

/-! ## The host interface -/

/-- Severity of a `qiLog` line. -/
inductive LogLevel
  | error
  | warning
  | verbose
  deriving DecidableEq, Repr

/-- Which `ALMemory` a proxy talks to: the one of the parent broker, or the one
of the NAOqi reached at an address and port. -/
inductive Bus
  | parent
  | remote (ip : String) (port : Int)
  deriving DecidableEq, Repr

/-- One subscription of a module callback to an event on a memory. -/
structure Subscription where
  bus : Bus
  event : String
  module : String
  callback : String
  deriving DecidableEq, Repr

/-- The calls the module issues to its host. `V` stands for `AL::ALValue`. -/
inductive HostCall (V : Type)
  | lock
  | unlock
  | log (level : LogLevel) (category : String) (msg : String)
  | newMemoryProxy
  | newBehaviorManagerProxy
  | newAudioPlayerProxy
  | newMemoryProxyRemote (ip : String) (port : Int)
  | declareEvent (event : String)
  | subscribeToEvent (bus : Bus) (event : String) (module : String) (callback : String)
  | unsubscribeToEvent (bus : Bus) (event : String) (module : String)
  | raiseEvent (event : String) (value : V)
  | playFile (file : String)
  | runBehavior (name : String)
  deriving DecidableEq, Repr

/-- What the host contributes to a run of an operation. `AL::ALValue`, the
proxies and the file system belong to the NAOqi SDK and the robot, not to this
repository: the construction of a value from an `int`, the conversion
`(int)value` (`none` when it throws), the verdict on each proxy call (`some
what` when it throws `AL::ALError`, given the calls issued so far) and the
content of `remote.conf` (`none` when it cannot be opened) are parameters. -/
structure Host (V : Type) where
  ofInt : Int → V
  toInt : V → Option Int
  fails : List (HostCall V) → HostCall V → Option String
  config : Option String

/-- The data members of `struct Interface::Impl`; a proxy pointer is recorded by
whether it is set, the remote one also by the endpoint it was opened on. -/
structure Impl where
  remoteIP : String
  remotePort : Int
  memoryProxy : Bool
  memoryProxyRemote : Option (String × Int)
  behaviorProxy : Bool
  playerProxy : Bool
  deriving DecidableEq, Repr

/-- The module together with what its host has seen of it: the subscriptions
the module holds (a list read as a multiset) and the calls issued so far. -/
structure World (V : Type) where
  impl : Impl
  subs : List Subscription
  trace : List (HostCall V)
  deriving DecidableEq, Repr

/-- How an operation can end other than by returning: an `AL::ALError` reaches
the caller, or a null `shared_ptr` is dereferenced. -/
inductive Fault
  | alError (what : String)
  | nullPointer
  deriving DecidableEq, Repr

deriving instance DecidableEq for Except

/-- An operation: from a world to how it ended and the world it left. -/
def M (V : Type) (α : Type) : Type := World V → Except Fault α × World V

/-- Return a value without touching the world. -/
def M.pure {V α : Type} (a : α) : M V α := fun w => (Except.ok a, w)

/-- Sequencing: a fault ends the operation where it occurred. -/
def M.bind {V α β : Type} (x : M V α) (f : α → M V β) : M V β := fun w =>
  match x w with
  | (Except.ok a, w1) => f a w1
  | (Except.error e, w1) => (Except.error e, w1)

instance (V : Type) : Monad (M V) where
  pure := M.pure
  bind := M.bind

/-- Effect of a successful call on the subscriptions: `subscribeToEvent` adds
one, `unsubscribeToEvent` removes one of that module on that event. -/
def HostCall.effect {V : Type} : HostCall V → List Subscription → List Subscription
  | HostCall.subscribeToEvent b e m cb, subs => subs ++ [⟨b, e, m, cb⟩]
  | HostCall.unsubscribeToEvent b e m, subs =>
    subs.eraseP (fun s => decide (s.bus = b ∧ s.event = e ∧ s.module = m))
  | _, subs => subs

/-- A call that cannot throw (logger, mutex). -/
def emit {V : Type} (c : HostCall V) : M V Unit := fun w =>
  (Except.ok (), { w with trace := w.trace ++ [c] })

/-- A proxy call or proxy construction: the host decides whether it throws. -/
def hostCall {V : Type} (h : Host V) (c : HostCall V) : M V Unit := fun w =>
  match h.fails w.trace c with
  | some what => (Except.error (Fault.alError what), { w with trace := w.trace ++ [c] })
  | none => (Except.ok (), { w with trace := w.trace ++ [c], subs := c.effect w.subs })

/-- A call through `impl->memoryProxy`. -/
def viaMemoryProxy {V : Type} (h : Host V) (c : HostCall V) : M V Unit := fun w =>
  if w.impl.memoryProxy then hostCall h c w else (Except.error Fault.nullPointer, w)

/-- A call through `impl->memoryProxyRemote`, on the memory it is connected to. -/
def viaMemoryProxyRemote {V : Type} (h : Host V) (c : Bus → HostCall V) : M V Unit := fun w =>
  match w.impl.memoryProxyRemote with
  | some ep => hostCall h (c (Bus.remote ep.1 ep.2)) w
  | none => (Except.error Fault.nullPointer, w)

/-- The block `try { body } catch (const AL::ALError& e) { handler }`. -/
def tryCatch {V : Type} (body : M V Unit) (handler : String → M V Unit) : M V Unit := fun w =>
  match body w with
  | (Except.error (Fault.alError what), w1) => handler what w1
  | r => r

/-- The scope of `AL::ALCriticalSection section(impl->fCallbackMutex)`: the
mutex is taken on entry and released when the scope is left, by return or by
exception; a null-pointer dereference ends the run inside the scope. -/
def criticalSection {V : Type} (body : M V Unit) : M V Unit := fun w =>
  match body { w with trace := w.trace ++ [HostCall.lock] } with
  | (Except.error Fault.nullPointer, w1) => (Except.error Fault.nullPointer, w1)
  | (r, w1) => (r, { w1 with trace := w1.trace ++ [HostCall.unlock] })

/-- Assignment to `impl->remoteIP` and `impl->remotePort`. -/
def setRemote {V : Type} (IP : String) (port : Int) : M V Unit := fun w =>
  (Except.ok (), { w with impl := { w.impl with remoteIP := IP, remotePort := port } })

/-- The statement `impl->memoryProxyRemote = shared_ptr(new ALMemoryProxy(remoteIP,
remotePort))`: the pointer is replaced only when the construction succeeded. -/
def connectRemote {V : Type} (h : Host V) : M V Unit := fun w =>
  match hostCall h (HostCall.newMemoryProxyRemote w.impl.remoteIP w.impl.remotePort) w with
  | (Except.ok (), w1) =>
    (Except.ok (), { w1 with impl :=
      { w1.impl with memoryProxyRemote := some (w.impl.remoteIP, w.impl.remotePort) } })
  | r => r

/-! ## `struct Interface::Impl` -/

/-- `Impl::readConfig(IP, port)`: reads both from the config file and logs the
endpoint; the new values of the two reference parameters are returned. -/
def Impl.readConfig {V : Type} (h : Host V) (IP : String) (port : Int) : M V (String × Int) := do
  let r := extractConfig h.config IP port
  emit (HostCall.log LogLevel.warning "Interface"
    ("Connecting to " ++ r.1 ++ ":" ++ toString r.2 ++ "\n"))
  pure r

/-- `Impl::call(filename)`: both proxy calls are commented out in the source,
only the log line remains. -/
def Impl.call {V : Type} (_filename : String) : M V Unit :=
  emit (HostCall.log LogLevel.warning "Interface" "Calling\n")

/-- The state before the constructor body runs: no proxy set, an empty address
and whatever the uninitialised `remotePort` holds. -/
def blank (V : Type) (port0 : Int) : World V :=
  { impl := ⟨"", port0, false, none, false, false⟩, subs := [], trace := [] }

/-- Creation of the three local proxies inside the constructor's `try` block. -/
def createProxies {V : Type} (h : Host V) : M V Unit := do
  hostCall h HostCall.newMemoryProxy
  (fun w => (Except.ok (), { w with impl := { w.impl with memoryProxy := true } }))
  hostCall h HostCall.newBehaviorManagerProxy
  (fun w => (Except.ok (), { w with impl := { w.impl with behaviorProxy := true } }))
  hostCall h HostCall.newAudioPlayerProxy
  (fun w => (Except.ok (), { w with impl := { w.impl with playerProxy := true } }))

set_option linter.dupNamespace false in
/-- The constructor `Impl::Impl(mod)`. -/
def Impl.Impl {V : Type} (h : Host V) : M V Unit := do
  tryCatch (createProxies h) (fun what =>
    emit (HostCall.log LogLevel.error "Interface" ("Error creating proxies: " ++ what ++ "\n")))
  viaMemoryProxy h (HostCall.declareEvent "StartSession")
  viaMemoryProxy h (HostCall.declareEvent "ChildCalled")
  viaMemoryProxy h (HostCall.subscribeToEvent Bus.parent "FrontTactilTouched" "Interface"
    "onTactilTouched")

/-! ## The bound methods of `Interface` -/

/-- `Interface::onTactilTouched()`. -/
def onTactilTouched {V : Type} (h : Host V) : M V Unit :=
  criticalSection do
    viaMemoryProxy h (HostCall.unsubscribeToEvent Bus.parent "FrontTactilTouched" "Interface")
    let r ← (fun w => Impl.readConfig h w.impl.remoteIP w.impl.remotePort w)
    setRemote r.1 r.2
    tryCatch (connectRemote h) (fun what =>
      emit (HostCall.log LogLevel.error "Interface"
        ("Error connecting to the other robot: " ++ what ++ "\n")))
    tryCatch
      (do
        viaMemoryProxyRemote h (fun b => HostCall.subscribeToEvent b "CallChild" "Interface"
          "callChild")
        viaMemoryProxyRemote h (fun b => HostCall.subscribeToEvent b "EndSession" "Interface"
          "endSession"))
      (fun what =>
        emit (HostCall.log LogLevel.error "Interface"
          ("Error subscribing to events: " ++ what ++ "\n")))
    viaMemoryProxy h (HostCall.raiseEvent "StartSession" (h.ofInt 1))

/-- The conversion `(int)value`, which throws when the value has no `int`
reading. -/
def toInt {V : Type} (h : Host V) (value : V) : M V Int := fun w =>
  match h.toInt value with
  | some n => (Except.ok n, w)
  | none => (Except.error (Fault.alError "ALValue"), w)

/-- `Interface::callChild(key, value, msg)`. -/
def callChild {V : Type} (h : Host V) (_key : String) (value : V) (_msg : V) : M V Unit :=
  criticalSection do
    viaMemoryProxyRemote h (fun b => HostCall.unsubscribeToEvent b "CallChild" "Interface")
    let n ← toInt h value
    if n = 1 then do
      emit (HostCall.log LogLevel.verbose "Interface" "Calling with name\n")
      Impl.call "home/nao/naoqi/sounds/name.wav"
    else if n = 2 then
      emit (HostCall.log LogLevel.verbose "Interface" "Calling with special phrase\n")
    else
      pure ()
    viaMemoryProxy h (HostCall.raiseEvent "ChildCalled" value)
    viaMemoryProxyRemote h (fun b => HostCall.subscribeToEvent b "CallChild" "Interface"
      "callChild")

/-- `Interface::endSession()`. -/
def endSession {V : Type} (h : Host V) : M V Unit :=
  criticalSection do
    viaMemoryProxyRemote h (fun b => HostCall.unsubscribeToEvent b "EndSession" "Interface")
    tryCatch
      (do
        viaMemoryProxyRemote h (fun b => HostCall.unsubscribeToEvent b "CallChild" "Interface")
        viaMemoryProxy h (HostCall.subscribeToEvent Bus.parent "FrontTactilTouched" "Interface"
          "onTactilTouched"))
      (fun what =>
        emit (HostCall.log LogLevel.error "Interface"
          ("Error managing events while reseting" ++ what ++ "\n")))

/-- `Interface::enableTask(IP, port)`. -/
def enableTask {V : Type} (h : Host V) (IP : String) (port : Int) : M V Unit := do
  setRemote IP port
  tryCatch (connectRemote h) (fun what =>
    emit (HostCall.log LogLevel.error "Interface"
      ("Error connecting to the other robot: " ++ what ++ "\n")))
  viaMemoryProxy h (HostCall.subscribeToEvent Bus.parent "FrontTactilTouched" "Interface"
    "onTactilTouched")

/-- Positional value of a run of decimal digit characters. -/
def decimalValue (ds : List Char) : Nat :=
  Nat.ofDigits 10 (ds.reverse.map (fun c => c.toNat - 48))

/-- The integer a port token denotes: an optional sign and decimal digits. -/
def portValue (sign digits : List Char) : Int :=
  if sign = ['-'] then -(decimalValue digits : Int) else (decimalValue digits : Int)

/-- The subscription the constructor requests. -/
def subTactil : Subscription :=
  ⟨Bus.parent, "FrontTactilTouched", "Interface", "onTactilTouched"⟩

/-- The subscription to `CallChild` on the memory at an endpoint. -/
def subCallChild (ep : String × Int) : Subscription :=
  ⟨Bus.remote ep.1 ep.2, "CallChild", "Interface", "callChild"⟩

/-- The subscription to `EndSession` on the memory at an endpoint. -/
def subEndSession (ep : String × Int) : Subscription :=
  ⟨Bus.remote ep.1 ep.2, "EndSession", "Interface", "endSession"⟩

/-- A host on which no proxy call throws. -/
def NoFailure {V : Type} (h : Host V) : Prop := ∀ t c, h.fails t c = none

/-- The idle state: the local memory proxy exists and the only subscription is
the local one to `FrontTactilTouched`. -/
def Idle {V : Type} (w : World V) : Prop :=
  w.impl.memoryProxy = true ∧ w.subs = [subTactil]

/-- An in-session state: both memory proxies exist and the subscriptions are
`CallChild` and `EndSession` on the remote memory, nothing else. -/
def InSession {V : Type} (w : World V) : Prop :=
  w.impl.memoryProxy = true ∧
    ∃ ep, w.impl.memoryProxyRemote = some ep ∧ w.subs.Perm [subCallChild ep, subEndSession ep]

/-- The calls issued between two worlds of one run. -/
def issued {V : Type} (before after : World V) : List (HostCall V) :=
  after.trace.drop before.trace.length

/-- The events raised by a sequence of calls, with their values. -/
def raised {V : Type} : List (HostCall V) → List (String × V)
  | [] => []
  | HostCall.raiseEvent e v :: cs => (e, v) :: raised cs
  | _ :: cs => raised cs

/-- Whether a call is a log line. -/
def HostCall.isLog {V : Type} : HostCall V → Bool
  | HostCall.log _ _ _ => true
  | _ => false

/-- How many subscriptions to an event name the module holds. -/
def subscriptionCount {V : Type} (name : String) (w : World V) : Nat :=
  w.subs.countP (fun s => s.event == name)

/-- The log line of the name-call branch of `callChild`. -/
def nameLog (V : Type) : HostCall V :=
  HostCall.log LogLevel.verbose "Interface" "Calling with name\n"

/-- The log line of `Impl::call`. -/
def callLog (V : Type) : HostCall V :=
  HostCall.log LogLevel.warning "Interface" "Calling\n"

/-- The log line of the phrase branch of `callChild`. -/
def phraseLog (V : Type) : HostCall V :=
  HostCall.log LogLevel.verbose "Interface" "Calling with special phrase\n"

/-- The log lines of the branch `callChild` takes on an integer code. -/
def branchLogs (V : Type) (n : Int) : List (HostCall V) :=
  if n = 1 then [nameLog V, callLog V] else if n = 2 then [phraseLog V] else []

/-- Several calls that cannot throw, one after the other. -/
def emitAll {V : Type} (cs : List (HostCall V)) : M V Unit := fun w =>
  (Except.ok (), { w with trace := w.trace ++ cs })

/-- Whether a call takes or releases the callback mutex. -/
def HostCall.isMutex {V : Type} : HostCall V → Bool
  | HostCall.lock => true
  | HostCall.unlock => true
  | _ => false

/-- Whether a call plays a sound file or runs a behaviour. -/
def HostCall.isPlayback {V : Type} : HostCall V → Bool
  | HostCall.playFile _ => true
  | HostCall.runBehavior _ => true
  | _ => false

/-- An operation only appends to the trace, and every call it appends
satisfies `P`. -/
def Emits {V α : Type} (P : HostCall V → Prop) (m : M V α) : Prop :=
  ∀ w, ∃ d, (m w).2.trace = w.trace ++ d ∧ ∀ c ∈ d, P c

/-- The remote endpoint stored in the module. -/
def endpoint {V : Type} (w : World V) : String × Int :=
  (w.impl.remoteIP, w.impl.remotePort)

/-- An operation leaves the stored remote endpoint as it found it. -/
def Keeps {V α : Type} (m : M V α) : Prop :=
  ∀ w, endpoint (m w).2 = endpoint w

/-- A config text `lead ++ ip ++ ws ++ sign ++ digits ++ rest` of the form the
reader expects: optional leading whitespace, an address word, whitespace, and a
port written as an optional sign and decimal digits within `int` range; what
follows the port, if anything, does not start with a digit. -/
def WellFormed (lead ip ws sign digits rest : List Char) : Prop :=
  (∀ c ∈ lead, isspace c = true) ∧
  ip ≠ [] ∧ (∀ c ∈ ip, isspace c = false) ∧
  ws ≠ [] ∧ (∀ c ∈ ws, c = ' ' ∨ c = Char.ofNat 9 ∨ c = Char.ofNat 10) ∧
  (sign = [] ∨ sign = ['-'] ∨ sign = ['+']) ∧
  digits ≠ [] ∧ (∀ c ∈ digits, c.isDigit = true) ∧
  (∀ c ∈ rest.head?, c.isDigit = false) ∧
  INT_MIN ≤ portValue sign digits ∧ portValue sign digits ≤ INT_MAX

/-- The calls a client or the event dispatcher can make on the module. -/
inductive Op (V : Type)
  | enableTask (IP : String) (port : Int)
  | onTactilTouched
  | callChild (key : String) (value : V) (msg : V)
  | endSession

/-- Running a call. -/
def Op.run {V : Type} (h : Host V) : Op V → M V Unit
  | Op.enableTask IP port => Interface.enableTask h IP port
  | Op.onTactilTouched => Interface.onTactilTouched h
  | Op.callChild key value msg => Interface.callChild h key value msg
  | Op.endSession => Interface.endSession h

/-- The states reachable from the constructed module by any sequence of calls;
a call that dereferences a null pointer ends the run. -/
inductive Reachable {V : Type} : World V → Prop
  | constructed (h : Host V) (port0 : Int) :
      (Impl.Impl h (blank V port0)).1 = Except.ok () →
      Reachable (Impl.Impl h (blank V port0)).2
  | call (h : Host V) (op : Op V) (w : World V) :
      Reachable w → (op.run h w).1 ≠ Except.error Fault.nullPointer →
      Reachable (op.run h w).2

/-- When the host makes a call: a callback is dispatched while the module is
subscribed to the event that triggers it; `enableTask` is taken here only while
the module holds no subscription. -/
def Op.enabled {V : Type} (w : World V) : Op V → Prop
  | Op.enableTask _ _ => w.subs = []
  | Op.onTactilTouched => 0 < subscriptionCount "FrontTactilTouched" w
  | Op.callChild _ _ _ => 0 < subscriptionCount "CallChild" w
  | Op.endSession => 0 < subscriptionCount "EndSession" w

/-- The states reachable from the constructed module when every call is made
while it is enabled. -/
inductive Dispatched {V : Type} : World V → Prop
  | constructed (h : Host V) (port0 : Int) :
      (Impl.Impl h (blank V port0)).1 = Except.ok () →
      Dispatched (Impl.Impl h (blank V port0)).2
  | call (h : Host V) (op : Op V) (w : World V) :
      Dispatched w → op.enabled w → (op.run h w).1 ≠ Except.error Fault.nullPointer →
      Dispatched (op.run h w).2

/-- The shapes the subscriptions take along dispatched runs: none, the local
one alone, or remote ones on the memory the remote proxy is connected to. -/
def ShapeOf (i : Impl) (s : List Subscription) : Prop :=
  s = [] ∨ s = [subTactil] ∨
    ∃ ep, i.memoryProxyRemote = some ep ∧
      (s = [subCallChild ep] ∨ s = [subEndSession ep] ∨
        s = [subCallChild ep, subEndSession ep] ∨ s = [subEndSession ep, subCallChild ep])

/-- The shape invariant of a world. -/
def Shape {V : Type} (w : World V) : Prop := ShapeOf w.impl w.subs

/-- A triple on the module data and the subscriptions: from a world satisfying
`P`, the operation leaves one satisfying `Q` when it returns and one satisfying
`E` when it ends by a fault. -/
def Triple {V α : Type} (P : Impl → List Subscription → Prop) (m : M V α)
    (Q : α → Impl → List Subscription → Prop) (E : Impl → List Subscription → Prop) : Prop :=
  ∀ w, P w.impl w.subs →
    match m w with
    | (Except.ok a, w1) => Q a w1.impl w1.subs
    | (Except.error _, w1) => E w1.impl w1.subs

/-- An operation is bracketed by the callback mutex: what it issues starts with
`lock`, ends with `unlock` unless a null pointer ended the run, and has no
mutex call in between. -/
def HoldsMutex {V : Type} (m : M V Unit) (w : World V) : Prop :=
  ∃ d, (∀ c ∈ d, c.isMutex = false) ∧
    (((m w).1 ≠ Except.error Fault.nullPointer ∧
        issued w (m w).2 = HostCall.lock :: d ++ [HostCall.unlock]) ∨
      ((m w).1 = Except.error Fault.nullPointer ∧ issued w (m w).2 = HostCall.lock :: d))

/-- Whether a call is an `unsubscribeToEvent`. -/
def HostCall.isUnsubscribe {V : Type} : HostCall V → Bool
  | HostCall.unsubscribeToEvent _ _ _ => true
  | _ => false

/-- Whether a call is a `subscribeToEvent`. -/
def HostCall.isSubscribe {V : Type} : HostCall V → Bool
  | HostCall.subscribeToEvent _ _ _ _ => true
  | _ => false

/-- A host that never throws, with `int` for values and a config file. -/
def quietHost (config : Option String) : Host Int :=
  { ofInt := id, toInt := some, fails := fun _ _ => none, config := config }

/-- A host on which exactly the calls satisfying `bad` throw. -/
def faultyHost (bad : HostCall Int → Bool) : Host Int :=
  { ofInt := id
    toInt := some
    fails := fun _ c => if bad c then some "failed" else none
    config := some "192.168.1.5\n9559\n" }

/-- The module right after construction on a quiet host. -/
def constructedWorld : World Int :=
  (Impl.Impl (quietHost none) (blank Int 0)).2

/-- The module in the middle of a session with the robot at 192.168.1.5:9559. -/
def sessionWorld : World Int :=
  (onTactilTouched (quietHost (some "192.168.1.5\n9559\n")) constructedWorld).2

/-! ## The config reader -/

theorem digitsValue_eq_decimalValue (ds : List Char) : digitsValue ds = decimalValue ds := by
  induction ds using List.reverseRecOn with
  | nil => simp [digitsValue, decimalValue]
  | append_singleton l x ih =>
    simp only [digitsValue, decimalValue] at ih ⊢
    simp [List.foldl_append, ih, Nat.ofDigits_cons]
    omega

theorem skipws_append (lead rest : List Char) (hlead : ∀ c ∈ lead, isspace c = true) :
    skipws (lead ++ rest) = skipws rest := by
  induction lead with
  | nil => rfl
  | cons c cs ih =>
    have hc : isspace c = true := hlead c (List.mem_cons_self _ _)
    have hcs : ∀ d ∈ cs, isspace d = true := fun d hd => hlead d (List.mem_cons_of_mem _ hd)
    simp [skipws, hc, ih hcs]

theorem skipws_of_not_space (c : Char) (cs : List Char) (hc : isspace c = false) :
    skipws (c :: cs) = c :: cs := by
  simp [skipws, hc]

theorem takeWord_append (word : List Char) (c : Char) (rest : List Char)
    (hword : ∀ d ∈ word, isspace d = false) (hc : isspace c = true) :
    takeWord (word ++ c :: rest) = (word, c :: rest) := by
  induction word with
  | nil => simp [takeWord, hc]
  | cons d ds ih =>
    have hd : isspace d = false := hword d (List.mem_cons_self _ _)
    have hds : ∀ e ∈ ds, isspace e = false := fun e he => hword e (List.mem_cons_of_mem _ he)
    simp [takeWord, hd, ih hds]

theorem takeDigits_append (ds rest : List Char) (hds : ∀ d ∈ ds, d.isDigit = true)
    (hrest : ∀ c ∈ rest.head?, c.isDigit = false) :
    takeDigits (ds ++ rest) = (ds, rest) := by
  induction ds with
  | nil =>
    cases rest with
    | nil => rfl
    | cons c cs =>
      have hc : c.isDigit = false := hrest c (by simp)
      simp [takeDigits, hc]
  | cons d ds ih =>
    have hd : d.isDigit = true := hds d (List.mem_cons_self _ _)
    have htl : ∀ e ∈ ds, e.isDigit = true := fun e he => hds e (List.mem_cons_of_mem _ he)
    simp [takeDigits, hd, ih htl]

theorem isspace_cases (c : Char) (hc : isspace c = true) :
    c = ' ' ∨ c = Char.ofNat 9 ∨ c = Char.ofNat 10 ∨ c = Char.ofNat 11 ∨ c = Char.ofNat 12 ∨
      c = Char.ofNat 13 := by
  simpa [isspace, or_assoc] using hc

theorem isDigit_not_space (c : Char) (hc : c.isDigit = true) : isspace c = false := by
  cases hs : isspace c with
  | false => rfl
  | true =>
    exfalso
    rcases isspace_cases c hs with h | h | h | h | h | h <;> subst h <;> revert hc <;> decide

theorem isDigit_ne_minus (c : Char) (hc : c.isDigit = true) : c ≠ '-' := by
  intro h; subst h; revert hc; decide

theorem isDigit_ne_plus (c : Char) (hc : c.isDigit = true) : c ≠ '+' := by
  intro h; subst h; revert hc; decide

theorem takeSign_of_digit (d : Char) (ds : List Char) (hd : d.isDigit = true) :
    takeSign (d :: ds) = (false, d :: ds) := by
  unfold takeSign
  split
  · rename_i cs heq
    exact absurd (List.cons.inj heq).1 (isDigit_ne_minus d hd)
  · rename_i cs heq
    exact absurd (List.cons.inj heq).1 (isDigit_ne_plus d hd)
  · rfl

theorem sentry_skip (lead : List Char) (c : Char) (rest : List Char)
    (hlead : ∀ d ∈ lead, isspace d = true) (hc : isspace c = false) :
    IStream.sentry ⟨lead ++ c :: rest, false, false⟩ = (true, ⟨c :: rest, false, false⟩) := by
  have h : skipws (lead ++ c :: rest) = c :: rest := by
    rw [skipws_append _ _ hlead]; exact skipws_of_not_space _ _ hc
  simp only [IStream.sentry, h]
  rfl

theorem extractString_word (lead word : List Char) (c : Char) (rest : List Char) (str : String)
    (hlead : ∀ d ∈ lead, isspace d = true)
    (hword : word ≠ []) (hwordc : ∀ d ∈ word, isspace d = false) (hc : isspace c = true) :
    IStream.extractString ⟨lead ++ (word ++ c :: rest), false, false⟩ str
      = (String.mk word, ⟨c :: rest, false, false⟩) := by
  obtain ⟨i, word1, rfl⟩ := List.exists_cons_of_ne_nil hword
  have hi : isspace i = false := hwordc i (List.mem_cons_self _ _)
  have h1 := sentry_skip lead i (word1 ++ c :: rest) hlead hi
  have h2 : takeWord (i :: (word1 ++ c :: rest)) = (i :: word1, c :: rest) :=
    takeWord_append (i :: word1) c rest hwordc hc
  simp only [IStream.extractString, List.cons_append, h1, h2]
  rfl

theorem extractInt_field (lead sign digits rest : List Char) (val : Int)
    (hlead : ∀ d ∈ lead, isspace d = true)
    (hsign : sign = [] ∨ sign = ['-'] ∨ sign = ['+'])
    (hdig : digits ≠ []) (hdigc : ∀ c ∈ digits, c.isDigit = true)
    (hrest : ∀ c ∈ rest.head?, c.isDigit = false)
    (hlo : INT_MIN ≤ portValue sign digits) (hhi : portValue sign digits ≤ INT_MAX) :
    (IStream.extractInt ⟨lead ++ (sign ++ (digits ++ rest)), false, false⟩ val).1
      = portValue sign digits := by
  obtain ⟨d, ds1, rfl⟩ := List.exists_cons_of_ne_nil hdig
  have hd : d.isDigit = true := hdigc d (List.mem_cons_self _ _)
  have h4 : takeDigits (d :: (ds1 ++ rest)) = (d :: ds1, rest) :=
    takeDigits_append (d :: ds1) rest hdigc hrest
  have hv : digitsValue (d :: ds1) = decimalValue (d :: ds1) := digitsValue_eq_decimalValue _
  rcases hsign with rfl | rfl | rfl
  · have h1 := sentry_skip lead d (ds1 ++ rest) hlead (isDigit_not_space d hd)
    have h0 : takeSign (d :: (ds1 ++ rest)) = (false, d :: (ds1 ++ rest)) :=
      takeSign_of_digit d _ hd
    have hlo1 : ¬ ((decimalValue (d :: ds1) : Int) < INT_MIN) := by
      simpa [portValue] using hlo
    have hhi1 : ¬ (INT_MAX < (decimalValue (d :: ds1) : Int)) := by
      simpa [portValue] using hhi
    simp [IStream.extractInt, h1, h0, h4, hv, hlo1, hhi1, portValue]
  · have h1 := sentry_skip lead '-' (d :: (ds1 ++ rest)) hlead (by decide)
    have hlo1 : ¬ (-(decimalValue (d :: ds1) : Int) < INT_MIN) := by
      simpa [portValue] using hlo
    have hhi1 : ¬ (INT_MAX < -(decimalValue (d :: ds1) : Int)) := by
      simpa [portValue] using hhi
    simp [IStream.extractInt, takeSign, h1, h4, hv, hlo1, hhi1, portValue]
  · have h1 := sentry_skip lead '+' (d :: (ds1 ++ rest)) hlead (by decide)
    have hlo1 : ¬ ((decimalValue (d :: ds1) : Int) < INT_MIN) := by
      simpa [portValue] using hlo
    have hhi1 : ¬ (INT_MAX < (decimalValue (d :: ds1) : Int)) := by
      simpa [portValue] using hhi
    simp [IStream.extractInt, takeSign, h1, h4, hv, hlo1, hhi1, portValue]

/-- The two extractions on a well-formed file give the address word and the
value of the port field. -/
theorem extractConfig_wellFormed (lead ip ws sign digits rest : List Char) (IP : String)
    (port : Int) (hwf : WellFormed lead ip ws sign digits rest) :
    extractConfig (some (String.mk (lead ++ ip ++ ws ++ sign ++ digits ++ rest))) IP port
      = (String.mk ip, portValue sign digits) := by
  obtain ⟨hlead, hip, hipc, hws, hwsc, hsign, hdig, hdigc, hrest, hlo, hhi⟩ := hwf
  have hwsc1 : ∀ c ∈ ws, isspace c = true := by
    intro c hc
    rcases hwsc c hc with h | h | h <;> subst h <;> decide
  obtain ⟨s, ws1, rfl⟩ := List.exists_cons_of_ne_nil hws
  have hs : isspace s = true := hwsc1 s (List.mem_cons_self _ _)
  have hassoc : lead ++ ip ++ s :: ws1 ++ sign ++ digits ++ rest
      = lead ++ (ip ++ s :: (ws1 ++ (sign ++ (digits ++ rest)))) := by simp
  have h1 := extractString_word lead ip s (ws1 ++ (sign ++ (digits ++ rest))) IP hlead hip hipc hs
  have h2 := extractInt_field (s :: ws1) sign digits rest port hwsc1 hsign hdig hdigc hrest hlo hhi
  simp only [List.cons_append] at h2
  simp only [extractConfig, IStream.ofFile, String.toList, hassoc, h1, h2]

/-- C8: on a config text made of optional leading whitespace, an address word,
one or more spaces, tabs or newlines, and a decimal port within `int` range,
`readConfig` returns exactly the address word as `IP` and the value of the port
field as `port`, whatever the whitespace between them. -/
theorem readConfig_reads_endpoint {V : Type} (h : Host V)
    (lead ip ws sign digits rest : List Char) (IP : String) (port : Int) (w : World V)
    (hfile : h.config = some (String.mk (lead ++ ip ++ ws ++ sign ++ digits ++ rest)))
    (hwf : WellFormed lead ip ws sign digits rest) :
    (Impl.readConfig h IP port w).1 = Except.ok (String.mk ip, portValue sign digits) := by
  have hx := extractConfig_wellFormed lead ip ws sign digits rest IP port hwf
  simp only [Impl.readConfig, bind, M.bind, emit, pure, M.pure, hfile, hx]

theorem wellFormed_example :
    WellFormed [' '] "192.168.1.5".toList [' ', Char.ofNat 9, Char.ofNat 10] [] "9559".toList
      [Char.ofNat 10] := by
  refine ⟨by decide, by decide, by decide, by decide, by decide, by decide, by decide, by decide,
    by decide, ?_, ?_⟩ <;> simp [portValue, decimalValue, INT_MIN, INT_MAX, Nat.ofDigits]

/-- C8 at a concrete file: the address and port of `" 192.168.1.5 \t\n9559\n"`. -/
theorem readConfig_reads_endpoint_witness :
    WellFormed [' '] "192.168.1.5".toList [' ', Char.ofNat 9, Char.ofNat 10] [] "9559".toList
      [Char.ofNat 10] ∧
    (Impl.readConfig (quietHost (some " 192.168.1.5 \t\n9559\n")) "" 0 constructedWorld).1
      = Except.ok ("192.168.1.5", 9559) :=
  ⟨wellFormed_example,
    readConfig_reads_endpoint (quietHost (some " 192.168.1.5 \t\n9559\n"))
      [' '] "192.168.1.5".toList [' ', Char.ofNat 9, Char.ofNat 10] [] "9559".toList
      [Char.ofNat 10] "" 0 constructedWorld rfl wellFormed_example⟩


/-! ## Calls appended to the trace -/

theorem issued_append {V : Type} (w w1 : World V) (d : List (HostCall V))
    (h : w1.trace = w.trace ++ d) : issued w w1 = d := by
  simp [issued, h]

theorem emits_pure {V α : Type} (P : HostCall V → Prop) (a : α) : Emits P (pure a : M V α) :=
  fun w => ⟨[], by simp [pure, M.pure], by simp⟩

theorem emits_emit {V : Type} (P : HostCall V → Prop) (c : HostCall V) (hc : P c) :
    Emits P (emit c) :=
  fun w => ⟨[c], by simp [emit], by simpa using hc⟩

theorem emits_hostCall {V : Type} (P : HostCall V → Prop) (h : Host V) (c : HostCall V)
    (hc : P c) : Emits P (hostCall h c) := by
  intro w
  refine ⟨[c], ?_, by simpa using hc⟩
  unfold hostCall
  cases h.fails w.trace c <;> rfl

theorem emits_viaMemoryProxy {V : Type} (P : HostCall V → Prop) (h : Host V) (c : HostCall V)
    (hc : P c) : Emits P (viaMemoryProxy h c) := by
  intro w
  unfold viaMemoryProxy
  cases w.impl.memoryProxy
  · exact ⟨[], by simp, by simp⟩
  · simpa using emits_hostCall P h c hc w

theorem emits_viaMemoryProxyRemote {V : Type} (P : HostCall V → Prop) (h : Host V)
    (c : Bus → HostCall V) (hc : ∀ b, P (c b)) : Emits P (viaMemoryProxyRemote h c) := by
  intro w
  unfold viaMemoryProxyRemote
  cases w.impl.memoryProxyRemote with
  | none => exact ⟨[], by simp, by simp⟩
  | some ep => simpa using emits_hostCall P h _ (hc _) w

theorem emits_bind {V α β : Type} (P : HostCall V → Prop) (x : M V α) (f : α → M V β)
    (hx : Emits P x) (hf : ∀ a, Emits P (f a)) : Emits P (x >>= f) := by
  intro w
  obtain ⟨d1, h1, hd1⟩ := hx w
  show ∃ d, (M.bind x f w).2.trace = w.trace ++ d ∧ ∀ c ∈ d, P c
  unfold M.bind
  rcases hxw : x w with ⟨r, w1⟩
  rw [hxw] at h1
  cases r with
  | error e => exact ⟨d1, h1, hd1⟩
  | ok a =>
    obtain ⟨d2, h2, hd2⟩ := hf a w1
    refine ⟨d1 ++ d2, ?_, ?_⟩
    · simp only at h1 ⊢
      rw [h2, h1, List.append_assoc]
    · intro c hc
      rcases List.mem_append.mp hc with hc | hc
      · exact hd1 c hc
      · exact hd2 c hc

theorem emits_tryCatch {V : Type} (P : HostCall V → Prop) (body : M V Unit)
    (handler : String → M V Unit) (hb : Emits P body) (hh : ∀ e, Emits P (handler e)) :
    Emits P (tryCatch body handler) := by
  intro w
  obtain ⟨d1, h1, hd1⟩ := hb w
  unfold tryCatch
  rcases hbw : body w with ⟨r, w1⟩
  rw [hbw] at h1
  rcases r with (e | e) | a
  · obtain ⟨d2, h2, hd2⟩ := hh e w1
    refine ⟨d1 ++ d2, ?_, ?_⟩
    · simp only at h1 ⊢
      rw [h2, h1, List.append_assoc]
    · intro c hc
      rcases List.mem_append.mp hc with hc | hc
      · exact hd1 c hc
      · exact hd2 c hc
  · exact ⟨d1, h1, hd1⟩
  · exact ⟨d1, h1, hd1⟩

theorem emits_fun {V α : Type} (P : HostCall V → Prop) (m : M V α)
    (hm : ∀ w, (m w).2.trace = w.trace) : Emits P m :=
  fun w => ⟨[], by simp [hm w], by simp⟩

theorem emits_toInt {V : Type} (P : HostCall V → Prop) (h : Host V) (value : V) :
    Emits P (toInt h value) := by
  apply emits_fun
  intro w
  unfold toInt
  cases h.toInt value <;> rfl

theorem emits_setRemote {V : Type} (P : HostCall V → Prop) (IP : String) (port : Int) :
    Emits P (setRemote IP port : M V Unit) :=
  emits_fun P _ (fun _ => rfl)

theorem emits_connectRemote {V : Type} (P : HostCall V → Prop) (h : Host V)
    (hc : ∀ ip port, P (HostCall.newMemoryProxyRemote ip port)) : Emits P (connectRemote h) := by
  intro w
  refine ⟨[HostCall.newMemoryProxyRemote w.impl.remoteIP w.impl.remotePort], ?_,
    by simpa using hc _ _⟩
  unfold connectRemote hostCall
  cases h.fails w.trace (HostCall.newMemoryProxyRemote w.impl.remoteIP w.impl.remotePort) <;> rfl

theorem emits_readConfig {V : Type} (P : HostCall V → Prop) (h : Host V) (IP : String)
    (port : Int) (hlog : ∀ l c m, P (HostCall.log l c m)) :
    Emits P (Impl.readConfig h IP port) :=
  fun w => ⟨[_], rfl, by simpa using hlog _ _ _⟩

theorem emits_criticalSection {V : Type} (P : HostCall V → Prop) (body : M V Unit)
    (hb : Emits P body) (hlock : P HostCall.lock) (hunlock : P HostCall.unlock) :
    Emits P (criticalSection body) := by
  intro w
  obtain ⟨d, hd, hP⟩ := hb { w with trace := w.trace ++ [HostCall.lock] }
  unfold criticalSection
  rcases hbw : body { w with trace := w.trace ++ [HostCall.lock] } with ⟨r, w1⟩
  rw [hbw] at hd
  simp only at hd
  rcases r with (e | e) | a
  · refine ⟨HostCall.lock :: d ++ [HostCall.unlock], by simp [hd], ?_⟩
    intro c hc
    simp only [List.cons_append, List.mem_cons, List.mem_append, List.mem_singleton,
      List.not_mem_nil, or_false] at hc
    rcases hc with rfl | hc | rfl
    · exact hlock
    · exact hP c hc
    · exact hunlock
  · refine ⟨HostCall.lock :: d, by simp [hd], ?_⟩
    intro c hc
    rcases List.mem_cons.mp hc with rfl | hc
    · exact hlock
    · exact hP c hc
  · refine ⟨HostCall.lock :: d ++ [HostCall.unlock], by simp [hd], ?_⟩
    intro c hc
    simp only [List.cons_append, List.mem_cons, List.mem_append, List.mem_singleton,
      List.not_mem_nil, or_false] at hc
    rcases hc with rfl | hc | rfl
    · exact hlock
    · exact hP c hc
    · exact hunlock

/-- What the body of a critical section appends is bracketed by `lock` and,
unless a null pointer ended the run, `unlock`. -/
theorem criticalSection_bracket {V : Type} (P : HostCall V → Prop) (body : M V Unit)
    (hb : Emits P body) (w : World V) :
    ∃ d, (∀ c ∈ d, P c) ∧
      (((criticalSection body w).1 ≠ Except.error Fault.nullPointer ∧
          issued w (criticalSection body w).2 = HostCall.lock :: d ++ [HostCall.unlock]) ∨
        ((criticalSection body w).1 = Except.error Fault.nullPointer ∧
          issued w (criticalSection body w).2 = HostCall.lock :: d)) := by
  obtain ⟨d, hd, hP⟩ := hb { w with trace := w.trace ++ [HostCall.lock] }
  refine ⟨d, hP, ?_⟩
  unfold criticalSection issued
  rcases hbw : body { w with trace := w.trace ++ [HostCall.lock] } with ⟨r, w1⟩
  rw [hbw] at hd
  simp only at hd
  rcases r with (e | e) | a
  · left; simp [hd]
  · right; simp [hd]
  · left; simp [hd]

/-! ## The calls each method can issue -/

/-- `callChild` is a critical section whose body issues only log lines,
`unsubscribeToEvent`, `raiseEvent` and `subscribeToEvent`. -/
theorem callChild_body {V : Type} (P : HostCall V → Prop) (h : Host V) (key : String)
    (value msg : V)
    (hlog : ∀ l c m, P (HostCall.log l c m))
    (hsub : ∀ b e m cb, P (HostCall.subscribeToEvent b e m cb))
    (hunsub : ∀ b e m, P (HostCall.unsubscribeToEvent b e m))
    (hraise : ∀ e v, P (HostCall.raiseEvent e v)) :
    ∃ body, callChild h key value msg = criticalSection body ∧ Emits P body := by
  refine ⟨_, rfl, ?_⟩
  apply emits_bind _ _ _ (emits_viaMemoryProxyRemote _ _ _ (fun _ => hunsub _ _ _))
  intro _
  apply emits_bind _ _ _ (emits_toInt _ _ _)
  intro n
  have hrest : ∀ y : Unit, Emits P (do
      viaMemoryProxy h (HostCall.raiseEvent "ChildCalled" value)
      viaMemoryProxyRemote h (fun b => HostCall.subscribeToEvent b "CallChild" "Interface"
        "callChild")) := fun _ =>
    emits_bind _ _ _ (emits_viaMemoryProxy _ _ _ (hraise _ _))
      (fun _ => emits_viaMemoryProxyRemote _ _ _ (fun _ => hsub _ _ _ _))
  dsimp only
  split
  · exact emits_bind _ _ _ (emits_emit _ _ (hlog _ _ _))
      (fun _ => emits_bind _ _ _ (emits_emit _ _ (hlog _ _ _)) hrest)
  · split
    · exact emits_bind _ _ _ (emits_emit _ _ (hlog _ _ _)) hrest
    · exact emits_bind _ _ _ (emits_pure _ _) hrest

/-- `onTactilTouched` is a critical section whose body issues only log lines, the
remote proxy construction, `unsubscribeToEvent`, `subscribeToEvent` and
`raiseEvent`. -/
theorem onTactilTouched_body {V : Type} (P : HostCall V → Prop) (h : Host V)
    (hlog : ∀ l c m, P (HostCall.log l c m))
    (hnew : ∀ ip port, P (HostCall.newMemoryProxyRemote ip port))
    (hsub : ∀ b e m cb, P (HostCall.subscribeToEvent b e m cb))
    (hunsub : ∀ b e m, P (HostCall.unsubscribeToEvent b e m))
    (hraise : ∀ e v, P (HostCall.raiseEvent e v)) :
    ∃ body, onTactilTouched h = criticalSection body ∧ Emits P body := by
  refine ⟨_, rfl, ?_⟩
  apply emits_bind _ _ _ (emits_viaMemoryProxy _ _ _ (hunsub _ _ _))
  intro _
  apply emits_bind
  · intro w
    exact emits_readConfig P h _ _ hlog w
  intro r
  apply emits_bind _ _ _ (emits_setRemote _ _ _)
  intro _
  apply emits_bind
  · exact emits_tryCatch _ _ _ (emits_connectRemote _ _ hnew) (fun _ => emits_emit _ _ (hlog _ _ _))
  intro _
  apply emits_bind
  · apply emits_tryCatch
    · exact emits_bind _ _ _ (emits_viaMemoryProxyRemote _ _ _ (fun _ => hsub _ _ _ _))
        (fun _ => emits_viaMemoryProxyRemote _ _ _ (fun _ => hsub _ _ _ _))
    · exact fun _ => emits_emit _ _ (hlog _ _ _)
  intro _
  exact emits_viaMemoryProxy _ _ _ (hraise _ _)

/-- `endSession` is a critical section whose body issues only log lines,
`unsubscribeToEvent` and `subscribeToEvent`. -/
theorem endSession_body {V : Type} (P : HostCall V → Prop) (h : Host V)
    (hlog : ∀ l c m, P (HostCall.log l c m))
    (hsub : ∀ b e m cb, P (HostCall.subscribeToEvent b e m cb))
    (hunsub : ∀ b e m, P (HostCall.unsubscribeToEvent b e m)) :
    ∃ body, endSession h = criticalSection body ∧ Emits P body := by
  refine ⟨_, rfl, ?_⟩
  apply emits_bind _ _ _ (emits_viaMemoryProxyRemote _ _ _ (fun _ => hunsub _ _ _))
  intro _
  apply emits_tryCatch
  · exact emits_bind _ _ _ (emits_viaMemoryProxyRemote _ _ _ (fun _ => hunsub _ _ _))
      (fun _ => emits_viaMemoryProxy _ _ _ (hsub _ _ _ _))
  · exact fun _ => emits_emit _ _ (hlog _ _ _)

/-- `enableTask` issues only log lines, the remote proxy construction and
`subscribeToEvent`. -/
theorem emits_enableTask {V : Type} (P : HostCall V → Prop) (h : Host V) (IP : String)
    (port : Int)
    (hlog : ∀ l c m, P (HostCall.log l c m))
    (hnew : ∀ ip port, P (HostCall.newMemoryProxyRemote ip port))
    (hsub : ∀ b e m cb, P (HostCall.subscribeToEvent b e m cb)) :
    Emits P (enableTask h IP port) := by
  apply emits_bind _ _ _ (emits_setRemote _ _ _)
  intro _
  apply emits_bind
  · exact emits_tryCatch _ _ _ (emits_connectRemote _ _ hnew) (fun _ => emits_emit _ _ (hlog _ _ _))
  intro _
  exact emits_viaMemoryProxy _ _ _ (hsub _ _ _ _)

/-! ## The stored endpoint -/

theorem keeps_pure {V α : Type} (a : α) : Keeps (pure a : M V α) := fun _ => rfl

theorem keeps_emit {V : Type} (c : HostCall V) : Keeps (emit c) := fun _ => rfl

theorem keeps_hostCall {V : Type} (h : Host V) (c : HostCall V) : Keeps (hostCall h c) := by
  intro w
  unfold hostCall
  cases h.fails w.trace c <;> rfl

theorem keeps_viaMemoryProxy {V : Type} (h : Host V) (c : HostCall V) :
    Keeps (viaMemoryProxy h c) := by
  intro w
  unfold viaMemoryProxy
  cases w.impl.memoryProxy
  · rfl
  · simpa using keeps_hostCall h c w

theorem keeps_viaMemoryProxyRemote {V : Type} (h : Host V) (c : Bus → HostCall V) :
    Keeps (viaMemoryProxyRemote h c) := by
  intro w
  unfold viaMemoryProxyRemote
  cases w.impl.memoryProxyRemote with
  | none => rfl
  | some ep => simpa using keeps_hostCall h _ w

theorem keeps_toInt {V : Type} (h : Host V) (value : V) : Keeps (toInt h value) := by
  intro w
  unfold toInt
  cases h.toInt value <;> rfl

theorem keeps_connectRemote {V : Type} (h : Host V) : Keeps (connectRemote h) := by
  intro w
  unfold connectRemote hostCall
  cases h.fails w.trace (HostCall.newMemoryProxyRemote w.impl.remoteIP w.impl.remotePort) <;> rfl

theorem keeps_bind {V α β : Type} (x : M V α) (f : α → M V β)
    (hx : Keeps x) (hf : ∀ a, Keeps (f a)) : Keeps (x >>= f) := by
  intro w
  have h1 := hx w
  show endpoint (M.bind x f w).2 = endpoint w
  unfold M.bind
  rcases hxw : x w with ⟨r, w1⟩
  rw [hxw] at h1
  cases r with
  | error e => exact h1
  | ok a => exact (hf a w1).trans h1

theorem keeps_tryCatch {V : Type} (body : M V Unit) (handler : String → M V Unit)
    (hb : Keeps body) (hh : ∀ e, Keeps (handler e)) : Keeps (tryCatch body handler) := by
  intro w
  have h1 := hb w
  unfold tryCatch
  rcases hbw : body w with ⟨r, w1⟩
  rw [hbw] at h1
  rcases r with (e | e) | a
  · exact (hh e w1).trans h1
  · exact h1
  · exact h1

theorem keeps_criticalSection {V : Type} (body : M V Unit) (hb : Keeps body) :
    Keeps (criticalSection body) := by
  intro w
  have h1 := hb { w with trace := w.trace ++ [HostCall.lock] }
  unfold criticalSection
  rcases hbw : body { w with trace := w.trace ++ [HostCall.lock] } with ⟨r, w1⟩
  rw [hbw] at h1
  rcases r with (e | e) | a <;> exact h1

theorem keeps_callChild {V : Type} (h : Host V) (key : String) (value msg : V) :
    Keeps (callChild h key value msg) := by
  apply keeps_criticalSection
  apply keeps_bind _ _ (keeps_viaMemoryProxyRemote _ _)
  intro _
  apply keeps_bind _ _ (keeps_toInt _ _)
  intro n
  have hrest : ∀ y : Unit, Keeps (do
      viaMemoryProxy h (HostCall.raiseEvent "ChildCalled" value)
      viaMemoryProxyRemote h (fun b => HostCall.subscribeToEvent b "CallChild" "Interface"
        "callChild")) := fun _ =>
    keeps_bind _ _ (keeps_viaMemoryProxy _ _) (fun _ => keeps_viaMemoryProxyRemote _ _)
  dsimp only
  split
  · exact keeps_bind _ _ (keeps_emit _) (fun _ => keeps_bind _ _ (keeps_emit _) hrest)
  · split
    · exact keeps_bind _ _ (keeps_emit _) hrest
    · exact keeps_bind _ _ (keeps_pure _) hrest

theorem keeps_endSession {V : Type} (h : Host V) : Keeps (endSession h) := by
  apply keeps_criticalSection
  apply keeps_bind _ _ (keeps_viaMemoryProxyRemote _ _)
  intro _
  apply keeps_tryCatch
  · exact keeps_bind _ _ (keeps_viaMemoryProxyRemote _ _) (fun _ => keeps_viaMemoryProxy _ _)
  · exact fun _ => keeps_emit _

/-- What follows the assignment of the endpoint in `enableTask` and in
`onTactilTouched` leaves it alone. -/
theorem keeps_connect_and_after {V : Type} (h : Host V) (rest : M V Unit) (hrest : Keeps rest) :
    Keeps (do
      tryCatch (connectRemote h) (fun what =>
        emit (HostCall.log LogLevel.error "Interface"
          ("Error connecting to the other robot: " ++ what ++ "\n")))
      rest) :=
  keeps_bind _ _ (keeps_tryCatch _ _ (keeps_connectRemote _) (fun _ => keeps_emit _))
    (fun _ => hrest)

/-! ## The conditional of `callChild` -/

theorem bind_ok {V α β : Type} {x : M V α} {f : α → M V β} {w w1 : World V} {a : α}
    (hx : x w = (Except.ok a, w1)) : (x >>= f) w = f a w1 := by
  show M.bind x f w = f a w1
  simp only [M.bind, hx]

theorem bind_error {V α β : Type} {x : M V α} {f : α → M V β} {w w1 : World V} {e : Fault}
    (hx : x w = (Except.error e, w1)) : (x >>= f) w = (Except.error e, w1) := by
  show M.bind x f w = (Except.error e, w1)
  simp only [M.bind, hx]

/-- The conditional of `callChild`, as an operation of its own. -/
theorem callChild_eq {V : Type} (h : Host V) (key : String) (value msg : V) :
    callChild h key value msg = criticalSection
      (viaMemoryProxyRemote h (fun b => HostCall.unsubscribeToEvent b "CallChild" "Interface")
        >>= fun _ => toInt h value >>= fun n =>
          emitAll (branchLogs V n)
            >>= fun _ => viaMemoryProxy h (HostCall.raiseEvent "ChildCalled" value)
            >>= fun _ => viaMemoryProxyRemote h
              (fun b => HostCall.subscribeToEvent b "CallChild" "Interface" "callChild")) := by
  unfold callChild
  refine congrArg criticalSection ?_
  refine congrArg (fun k => _ >>= k) (funext fun _ => ?_)
  refine congrArg (fun k => _ >>= k) (funext fun n => ?_)
  funext w
  by_cases h1 : n = 1
  · simp [bind, M.bind, emit, emitAll, Impl.call, branchLogs, h1, nameLog, callLog]
  · by_cases h2 : n = 2
    · simp [bind, M.bind, emit, emitAll, branchLogs, h1, h2, phraseLog]
    · simp [bind, M.bind, pure, M.pure, emitAll, branchLogs, h1, h2]

/-- Once `callChild` has unsubscribed and converted its value, the calls it
issues are the mutex, the unsubscription, the log lines of the branch for that
code, and after them no further log line. -/
theorem callChild_issued {V : Type} (h : Host V) (key : String) (value msg : V) (w : World V)
    (ep : String × Int) (n : Int)
    (hproxy : w.impl.memoryProxyRemote = some ep)
    (hunsub : h.fails (w.trace ++ [HostCall.lock])
      (HostCall.unsubscribeToEvent (Bus.remote ep.1 ep.2) "CallChild" "Interface") = none)
    (hconv : h.toInt value = some n) :
    ∃ tail, issued w (callChild h key value msg w).2
        = [HostCall.lock,
            HostCall.unsubscribeToEvent (Bus.remote ep.1 ep.2) "CallChild" "Interface"]
          ++ branchLogs V n ++ tail ∧ ∀ c ∈ tail, c.isLog = false := by
  have htail : Emits (fun c : HostCall V => c.isLog = false)
      (viaMemoryProxy h (HostCall.raiseEvent "ChildCalled" value)
        >>= fun _ => viaMemoryProxyRemote h
          (fun b => HostCall.subscribeToEvent b "CallChild" "Interface" "callChild")) :=
    emits_bind _ _ _ (emits_viaMemoryProxy _ _ _ rfl)
      (fun _ => emits_viaMemoryProxyRemote _ _ _ (fun _ => rfl))
  obtain ⟨d, hd, hP⟩ := htail
    { impl := w.impl
      subs := (HostCall.unsubscribeToEvent (Bus.remote ep.1 ep.2) "CallChild"
        "Interface" : HostCall V).effect w.subs
      trace := w.trace ++ [HostCall.lock,
        HostCall.unsubscribeToEvent (Bus.remote ep.1 ep.2) "CallChild" "Interface"]
        ++ branchLogs V n }
  have e1 : viaMemoryProxyRemote h
      (fun b => HostCall.unsubscribeToEvent b "CallChild" "Interface")
      { w with trace := w.trace ++ [HostCall.lock] }
      = (Except.ok (), { impl := w.impl
                         subs := (HostCall.unsubscribeToEvent (Bus.remote ep.1 ep.2) "CallChild"
                            "Interface" : HostCall V).effect w.subs
                         trace := w.trace ++ [HostCall.lock,
                            HostCall.unsubscribeToEvent (Bus.remote ep.1 ep.2) "CallChild"
                              "Interface"] }) := by
    simp [viaMemoryProxyRemote, hproxy, hostCall, hunsub]
  have e2 : ∀ w1 : World V, toInt h value w1 = (Except.ok n, w1) := by
    intro w1; simp [toInt, hconv]
  rw [callChild_eq]
  unfold criticalSection issued
  have e3 : ∀ w1 : World V, emitAll (branchLogs V n) w1
      = (Except.ok (), { w1 with trace := w1.trace ++ branchLogs V n }) := fun _ => rfl
  rw [bind_ok e1, bind_ok (e2 _), bind_ok (e3 _)]
  simp only at hd ⊢
  rcases htw : (viaMemoryProxy h (HostCall.raiseEvent "ChildCalled" value)
        >>= fun _ => viaMemoryProxyRemote h
          (fun b => HostCall.subscribeToEvent b "CallChild" "Interface" "callChild"))
      { impl := w.impl
        subs := (HostCall.unsubscribeToEvent (Bus.remote ep.1 ep.2) "CallChild"
          "Interface" : HostCall V).effect w.subs
        trace := w.trace ++ [HostCall.lock,
          HostCall.unsubscribeToEvent (Bus.remote ep.1 ep.2) "CallChild" "Interface"]
          ++ branchLogs V n } with ⟨r, w4⟩
  rw [htw] at hd
  simp only at hd
  rcases r with (e | e) | a
  · refine ⟨d ++ [HostCall.unlock], by simp [hd], ?_⟩
    intro c hc
    rcases List.mem_append.mp hc with hc | hc
    · exact hP c hc
    · rw [List.mem_singleton.mp hc]; rfl
  · exact ⟨d, by simp [hd], hP⟩
  · refine ⟨d ++ [HostCall.unlock], by simp [hd], ?_⟩
    intro c hc
    rcases List.mem_append.mp hc with hc | hc
    · exact hP c hc
    · rw [List.mem_singleton.mp hc]; rfl

/-- C1: once `callChild` has unsubscribed and converted its value to an integer
`n`: for `n = 1` the name-call branch runs (its log line and the one of
`Impl::call` are issued) and the phrase branch does not; for `n = 2` the phrase
branch runs and the name-call branch does not; for any other `n` neither
runs. -/
theorem callChild_branch {V : Type} (h : Host V) (key : String) (value msg : V) (w : World V)
    (ep : String × Int) (n : Int)
    (hproxy : w.impl.memoryProxyRemote = some ep)
    (hunsub : h.fails (w.trace ++ [HostCall.lock])
      (HostCall.unsubscribeToEvent (Bus.remote ep.1 ep.2) "CallChild" "Interface") = none)
    (hconv : h.toInt value = some n) :
    (n = 1 → nameLog V ∈ issued w (callChild h key value msg w).2 ∧
        callLog V ∈ issued w (callChild h key value msg w).2 ∧
        phraseLog V ∉ issued w (callChild h key value msg w).2) ∧
    (n = 2 → phraseLog V ∈ issued w (callChild h key value msg w).2 ∧
        nameLog V ∉ issued w (callChild h key value msg w).2 ∧
        callLog V ∉ issued w (callChild h key value msg w).2) ∧
    (n ≠ 1 → n ≠ 2 → nameLog V ∉ issued w (callChild h key value msg w).2 ∧
        callLog V ∉ issued w (callChild h key value msg w).2 ∧
        phraseLog V ∉ issued w (callChild h key value msg w).2) := by
  obtain ⟨tail, ht, hlog⟩ := callChild_issued h key value msg w ep n hproxy hunsub hconv
  have hn : ∀ l c m, HostCall.log l c m ∉ tail := fun l c m hmem => by
    simpa [HostCall.isLog] using hlog _ hmem
  rw [ht]
  refine ⟨?_, ?_, ?_⟩
  · intro h1
    simp [branchLogs, h1, nameLog, callLog, phraseLog, hn]
  · intro h2
    simp [branchLogs, h2, nameLog, callLog, phraseLog, hn]
  · intro h1 h2
    simp [branchLogs, h1, h2, nameLog, callLog, phraseLog, hn]

/-! ## Triples on the subscriptions -/

theorem triple_conseq {V α : Type} {P P1 : Impl → List Subscription → Prop} {m : M V α}
    {Q Q1 : α → Impl → List Subscription → Prop} {E E1 : Impl → List Subscription → Prop}
    (ht : Triple P1 m Q1 E1) (hP : ∀ i s, P i s → P1 i s) (hQ : ∀ a i s, Q1 a i s → Q a i s)
    (hE : ∀ i s, E1 i s → E i s) : Triple P m Q E := by
  intro w hw
  have h1 := ht w (hP _ _ hw)
  rcases hmw : m w with ⟨r, w1⟩
  rw [hmw] at h1
  cases r with
  | error e => exact hE _ _ h1
  | ok a => exact hQ _ _ _ h1

theorem triple_bind {V α β : Type} {P : Impl → List Subscription → Prop} {x : M V α}
    {f : α → M V β} (Q : α → Impl → List Subscription → Prop)
    {R : β → Impl → List Subscription → Prop} {E : Impl → List Subscription → Prop}
    (hx : Triple P x Q E) (hf : ∀ a, Triple (Q a) (f a) R E) : Triple P (x >>= f) R E := by
  intro w hw
  have h1 := hx w hw
  show match M.bind x f w with
    | (Except.ok a, w1) => R a w1.impl w1.subs
    | (Except.error _, w1) => E w1.impl w1.subs
  unfold M.bind
  rcases hxw : x w with ⟨r, w1⟩
  rw [hxw] at h1
  cases r with
  | error e => exact h1
  | ok a => exact hf a w1 h1

theorem triple_tryCatch {V : Type} {P : Impl → List Subscription → Prop} {body : M V Unit}
    {handler : String → M V Unit} {Q : Unit → Impl → List Subscription → Prop}
    (C : Impl → List Subscription → Prop) {E : Impl → List Subscription → Prop}
    (hb : Triple P body Q C) (hh : ∀ e, Triple C (handler e) Q E) (hC : ∀ i s, C i s → E i s) :
    Triple P (tryCatch body handler) Q E := by
  intro w hw
  have h1 := hb w hw
  unfold tryCatch
  rcases hbw : body w with ⟨r, w1⟩
  rw [hbw] at h1
  rcases r with (e | e) | a
  · exact hh e w1 h1
  · exact hC _ _ h1
  · exact h1

theorem triple_criticalSection {V : Type} {P : Impl → List Subscription → Prop} {body : M V Unit}
    {Q : Unit → Impl → List Subscription → Prop} {E : Impl → List Subscription → Prop}
    (hb : Triple P body Q E) : Triple P (criticalSection body) Q E := by
  intro w hw
  have h1 := hb { w with trace := w.trace ++ [HostCall.lock] } hw
  unfold criticalSection
  rcases hbw : body { w with trace := w.trace ++ [HostCall.lock] } with ⟨r, w1⟩
  rw [hbw] at h1
  rcases r with (e | e) | a <;> exact h1

theorem triple_emit {V : Type} {P : Impl → List Subscription → Prop} (c : HostCall V)
    {E : Impl → List Subscription → Prop} : Triple P (emit c) (fun _ => P) E :=
  fun _ hw => hw

theorem triple_pure {V α : Type} {P : Impl → List Subscription → Prop} (a : α)
    {E : Impl → List Subscription → Prop} : Triple P (pure a : M V α) (fun _ => P) E :=
  fun _ hw => hw

theorem triple_hostCall {V : Type} {P : Impl → List Subscription → Prop} (h : Host V)
    (c : HostCall V) {Q : Unit → Impl → List Subscription → Prop}
    {E : Impl → List Subscription → Prop}
    (hQ : ∀ i s, P i s → Q () i (c.effect s)) (hE : ∀ i s, P i s → E i s) :
    Triple P (hostCall h c) Q E := by
  intro w hw
  unfold hostCall
  cases h.fails w.trace c with
  | none => exact hQ _ _ hw
  | some e => exact hE _ _ hw

theorem triple_viaMemoryProxy {V : Type} {P : Impl → List Subscription → Prop} (h : Host V)
    (c : HostCall V) {Q : Unit → Impl → List Subscription → Prop}
    {E : Impl → List Subscription → Prop}
    (hQ : ∀ i s, P i s → Q () i (c.effect s)) (hE : ∀ i s, P i s → E i s) :
    Triple P (viaMemoryProxy h c) Q E := by
  intro w hw
  unfold viaMemoryProxy
  cases w.impl.memoryProxy
  · exact hE _ _ hw
  · simpa using triple_hostCall h c hQ hE w hw

theorem triple_viaMemoryProxyRemote {V : Type} {P : Impl → List Subscription → Prop}
    (h : Host V) (c : Bus → HostCall V) {Q : Unit → Impl → List Subscription → Prop}
    {E : Impl → List Subscription → Prop}
    (hQ : ∀ i s ep, P i s → i.memoryProxyRemote = some ep →
      Q () i ((c (Bus.remote ep.1 ep.2)).effect s))
    (hE : ∀ i s, P i s → E i s) :
    Triple P (viaMemoryProxyRemote h c) Q E := by
  intro w hw
  unfold viaMemoryProxyRemote
  cases hp : w.impl.memoryProxyRemote with
  | none => exact hE _ _ hw
  | some ep =>
    exact triple_hostCall (P := fun i s => P i s ∧ i.memoryProxyRemote = some ep) h _
      (fun i s his => hQ i s ep his.1 his.2) (fun i s his => hE i s his.1) w ⟨hw, hp⟩

theorem triple_toInt {V : Type} {P : Impl → List Subscription → Prop} (h : Host V) (value : V)
    {E : Impl → List Subscription → Prop} (hE : ∀ i s, P i s → E i s) :
    Triple P (toInt h value) (fun _ => P) E := by
  intro w hw
  unfold toInt
  cases h.toInt value with
  | none => exact hE _ _ hw
  | some n => exact hw

/-- The connection attempt with its handler: the subscriptions stay, the remote
proxy may change. -/
theorem triple_connect {V : Type} (h : Host V) (P : List Subscription → Prop)
    {E : Impl → List Subscription → Prop} :
    Triple (fun _ s => P s)
      (tryCatch (connectRemote h) (fun what =>
        emit (HostCall.log LogLevel.error "Interface"
          ("Error connecting to the other robot: " ++ what ++ "\n"))))
      (fun _ _ s => P s) E := by
  intro w hw
  unfold tryCatch connectRemote hostCall
  cases h.fails w.trace (HostCall.newMemoryProxyRemote w.impl.remoteIP w.impl.remotePort) with
  | none => exact hw
  | some e => exact hw

/-! ## The shape of the subscriptions is preserved -/

theorem triple_trace_only {V α : Type} {P : Impl → List Subscription → Prop} (m : M V α)
    (a : α) {E : Impl → List Subscription → Prop}
    (hm : ∀ w, ∃ t, m w = (Except.ok a, { w with trace := t })) :
    Triple P m (fun _ => P) E := by
  intro w hw
  obtain ⟨t, ht⟩ := hm w
  rw [ht]
  exact hw

theorem shapeOf_tactil (i : Impl) : ShapeOf i [subTactil] := Or.inr (Or.inl rfl)

theorem shapeOf_nil (i : Impl) : ShapeOf i [] := Or.inl rfl

theorem onTactilTouched_shape {V : Type} (h : Host V) :
    Triple (fun _ s => s = [subTactil]) (onTactilTouched h) (fun _ => ShapeOf) ShapeOf := by
  apply triple_criticalSection
  apply triple_bind (fun _ _ s => s = [])
  · apply triple_viaMemoryProxy
    · intro i s hs
      subst hs
      simp [HostCall.effect, subTactil]
    · intro i s hs
      subst hs
      exact shapeOf_tactil i
  intro _
  apply triple_bind (fun _ _ s => s = [])
  · intro w hw
    exact hw
  intro r
  apply triple_bind (fun _ _ s => s = [])
  · intro w hw
    exact hw
  intro _
  apply triple_bind (fun _ _ s => s = []) (triple_connect h (fun s => s = []))
  intro _
  apply triple_bind (fun _ => ShapeOf)
  · apply triple_tryCatch ShapeOf
    · apply triple_bind (fun _ i s => ∃ ep, i.memoryProxyRemote = some ep ∧ s = [subCallChild ep])
      · apply triple_viaMemoryProxyRemote
        · intro i s ep hs hep
          subst hs
          exact ⟨ep, hep, by simp [HostCall.effect, subCallChild]⟩
        · intro i s hs
          subst hs
          exact shapeOf_nil i
      · intro _
        apply triple_viaMemoryProxyRemote
        · rintro i s ep ⟨ep1, hep1, hs⟩ hep
          subst hs
          have : ep1 = ep := Option.some.inj (hep1.symm.trans hep)
          subst this
          exact Or.inr (Or.inr ⟨ep1, hep, Or.inr (Or.inr (Or.inl (by
            simp [HostCall.effect, subEndSession])))⟩)
        · rintro i s ⟨ep1, hep1, hs⟩
          exact Or.inr (Or.inr ⟨ep1, hep1, Or.inl hs⟩)
    · intro e
      exact triple_emit _
    · exact fun _ _ hs => hs
  intro _
  apply triple_viaMemoryProxy
  · intro i s hs
    exact hs
  · intro i s hs
    exact hs

theorem shape_subscribed_callChild (i : Impl) (s : List Subscription) (hs : ShapeOf i s)
    (hc : 0 < s.countP (fun x => x.event == "CallChild")) :
    ∃ ep, i.memoryProxyRemote = some ep ∧
      (s = [subCallChild ep] ∨ s = [subCallChild ep, subEndSession ep] ∨
        s = [subEndSession ep, subCallChild ep]) := by
  rcases hs with rfl | rfl | ⟨ep, hep, rfl | rfl | rfl | rfl⟩
  · simp at hc
  · simp [subTactil] at hc
  · exact ⟨ep, hep, Or.inl rfl⟩
  · simp [subEndSession] at hc
  · exact ⟨ep, hep, Or.inr (Or.inl rfl)⟩
  · exact ⟨ep, hep, Or.inr (Or.inr rfl)⟩

theorem shape_subscribed_endSession (i : Impl) (s : List Subscription) (hs : ShapeOf i s)
    (hc : 0 < s.countP (fun x => x.event == "EndSession")) :
    ∃ ep, i.memoryProxyRemote = some ep ∧
      (s = [subEndSession ep] ∨ s = [subCallChild ep, subEndSession ep] ∨
        s = [subEndSession ep, subCallChild ep]) := by
  rcases hs with rfl | rfl | ⟨ep, hep, rfl | rfl | rfl | rfl⟩
  · simp at hc
  · simp [subTactil] at hc
  · simp [subCallChild] at hc
  · exact ⟨ep, hep, Or.inl rfl⟩
  · exact ⟨ep, hep, Or.inr (Or.inl rfl)⟩
  · exact ⟨ep, hep, Or.inr (Or.inr rfl)⟩

theorem shape_subscribed_tactil (i : Impl) (s : List Subscription) (hs : ShapeOf i s)
    (hc : 0 < s.countP (fun x => x.event == "FrontTactilTouched")) : s = [subTactil] := by
  rcases hs with rfl | rfl | ⟨ep, hep, rfl | rfl | rfl | rfl⟩
  · simp at hc
  · rfl
  · simp [subCallChild] at hc
  · simp [subEndSession] at hc
  · simp [subCallChild, subEndSession] at hc
  · simp [subCallChild, subEndSession] at hc

theorem callChild_shape {V : Type} (h : Host V) (key : String) (value msg : V) :
    Triple (fun i s => ShapeOf i s ∧ 0 < s.countP (fun x => x.event == "CallChild"))
      (callChild h key value msg) (fun _ => ShapeOf) ShapeOf := by
  rw [callChild_eq]
  apply triple_criticalSection
  apply triple_bind
    (fun _ i s => ∃ ep, i.memoryProxyRemote = some ep ∧ (s = [] ∨ s = [subEndSession ep]))
  · apply triple_viaMemoryProxyRemote
    · rintro i s ep ⟨hs, hc⟩ hep
      obtain ⟨ep1, hep1, hs1⟩ := shape_subscribed_callChild i s hs hc
      have : ep1 = ep := Option.some.inj (hep1.symm.trans hep)
      subst this
      refine ⟨ep1, hep, ?_⟩
      rcases hs1 with rfl | rfl | rfl
      · left; simp [HostCall.effect, subCallChild]
      · right; simp [HostCall.effect, subCallChild]
      · right; simp [HostCall.effect, subCallChild, subEndSession]
    · rintro i s ⟨hs, _⟩
      exact hs
  intro _
  have hmid : ∀ (i : Impl) (s : List Subscription),
      (∃ ep, i.memoryProxyRemote = some ep ∧ (s = [] ∨ s = [subEndSession ep])) →
        ShapeOf i s := by
    rintro i s ⟨ep, hep, rfl | rfl⟩
    · exact shapeOf_nil i
    · exact Or.inr (Or.inr ⟨ep, hep, Or.inr (Or.inl rfl)⟩)
  apply triple_bind
    (fun _ i s => ∃ ep, i.memoryProxyRemote = some ep ∧ (s = [] ∨ s = [subEndSession ep]))
  · exact triple_toInt h value hmid
  intro n
  apply triple_bind
    (fun _ i s => ∃ ep, i.memoryProxyRemote = some ep ∧ (s = [] ∨ s = [subEndSession ep]))
  · intro w hw
    exact hw
  intro _
  apply triple_bind
    (fun _ i s => ∃ ep, i.memoryProxyRemote = some ep ∧ (s = [] ∨ s = [subEndSession ep]))
  · apply triple_viaMemoryProxy
    · intro i s hs
      exact hs
    · exact hmid
  intro _
  apply triple_viaMemoryProxyRemote
  · rintro i s ep ⟨ep1, hep1, hs⟩ hep
    have : ep1 = ep := Option.some.inj (hep1.symm.trans hep)
    subst this
    refine Or.inr (Or.inr ⟨ep1, hep, ?_⟩)
    rcases hs with rfl | rfl
    · left; simp [HostCall.effect, subCallChild]
    · right; right; right; simp [HostCall.effect, subCallChild]
  · exact hmid

theorem endSession_shape {V : Type} (h : Host V) :
    Triple (fun i s => ShapeOf i s ∧ 0 < s.countP (fun x => x.event == "EndSession"))
      (endSession h) (fun _ => ShapeOf) ShapeOf := by
  apply triple_criticalSection
  have hmid : ∀ (i : Impl) (s : List Subscription),
      (∃ ep, i.memoryProxyRemote = some ep ∧ (s = [] ∨ s = [subCallChild ep])) →
        ShapeOf i s := by
    rintro i s ⟨ep, hep, rfl | rfl⟩
    · exact shapeOf_nil i
    · exact Or.inr (Or.inr ⟨ep, hep, Or.inl rfl⟩)
  apply triple_bind
    (fun _ i s => ∃ ep, i.memoryProxyRemote = some ep ∧ (s = [] ∨ s = [subCallChild ep]))
  · apply triple_viaMemoryProxyRemote
    · rintro i s ep ⟨hs, hc⟩ hep
      obtain ⟨ep1, hep1, hs1⟩ := shape_subscribed_endSession i s hs hc
      have : ep1 = ep := Option.some.inj (hep1.symm.trans hep)
      subst this
      refine ⟨ep1, hep, ?_⟩
      rcases hs1 with rfl | rfl | rfl
      · left; simp [HostCall.effect, subEndSession]
      · right; simp [HostCall.effect, subCallChild, subEndSession]
      · right; simp [HostCall.effect, subEndSession]
    · rintro i s ⟨hs, _⟩
      exact hs
  intro _
  apply triple_tryCatch ShapeOf
  · apply triple_bind (fun _ _ s => s = [])
    · apply triple_viaMemoryProxyRemote
      · rintro i s ep ⟨ep1, hep1, hs⟩ hep
        have : ep1 = ep := Option.some.inj (hep1.symm.trans hep)
        subst this
        rcases hs with rfl | rfl
        · simp [HostCall.effect]
        · simp [HostCall.effect, subCallChild]
      · exact hmid
    · intro _
      apply triple_viaMemoryProxy
      · intro i s hs
        subst hs
        exact Or.inr (Or.inl (by simp [HostCall.effect, subTactil]))
      · intro i s hs
        subst hs
        exact shapeOf_nil i
  · intro e
    exact triple_emit _
  · exact fun _ _ hs => hs

theorem enableTask_shape {V : Type} (h : Host V) (IP : String) (port : Int) :
    Triple (fun _ s => s = []) (enableTask h IP port) (fun _ => ShapeOf) ShapeOf := by
  apply triple_bind (fun _ _ s => s = [])
  · intro w hw
    exact hw
  intro _
  apply triple_bind (fun _ _ s => s = []) (triple_connect h (fun s => s = []))
  intro _
  apply triple_viaMemoryProxy
  · intro i s hs
    subst hs
    exact Or.inr (Or.inl (by simp [HostCall.effect, subTactil]))
  · intro i s hs
    subst hs
    exact shapeOf_nil i

theorem createProxies_subs {V : Type} (h : Host V) :
    Triple (fun _ s => s = []) (createProxies h) (fun _ _ s => s = []) (fun _ s => s = []) := by
  apply triple_bind (fun _ _ s => s = [])
  · exact triple_hostCall h _ (fun _ _ hs => hs) (fun _ _ hs => hs)
  intro _
  apply triple_bind (fun _ _ s => s = [])
  · intro w hw
    exact hw
  intro _
  apply triple_bind (fun _ _ s => s = [])
  · exact triple_hostCall h _ (fun _ _ hs => hs) (fun _ _ hs => hs)
  intro _
  apply triple_bind (fun _ _ s => s = [])
  · intro w hw
    exact hw
  intro _
  apply triple_bind (fun _ _ s => s = [])
  · exact triple_hostCall h _ (fun _ _ hs => hs) (fun _ _ hs => hs)
  intro _
  intro w hw
  exact hw

theorem constructor_subs {V : Type} (h : Host V) :
    Triple (fun _ s => s = []) (Impl.Impl h) (fun _ _ s => s = [subTactil]) (fun _ _ => True) := by
  apply triple_bind (fun _ _ s => s = [])
  · apply triple_tryCatch (fun _ s => s = [])
    · exact triple_conseq (createProxies_subs h) (fun _ _ hs => hs) (fun _ _ _ hs => hs)
        (fun _ _ hs => hs)
    · intro e
      exact triple_emit _
    · exact fun _ _ _ => trivial
  intro _
  apply triple_bind (fun _ _ s => s = [])
  · exact triple_viaMemoryProxy h _ (fun _ _ hs => hs) (fun _ _ _ => trivial)
  intro _
  apply triple_bind (fun _ _ s => s = [])
  · exact triple_viaMemoryProxy h _ (fun _ _ hs => hs) (fun _ _ _ => trivial)
  intro _
  apply triple_viaMemoryProxy
  · intro i s hs
    subst hs
    simp [HostCall.effect, subTactil]
  · exact fun _ _ _ => trivial

/-- Every state of a dispatched run has one of the shapes. -/
theorem dispatched_shape {V : Type} (w : World V) (hw : Dispatched w) : Shape w := by
  induction hw with
  | constructed h port0 hok =>
    have h1 := constructor_subs h (blank V port0) rfl
    rcases hrun : Impl.Impl h (blank V port0) with ⟨r, w1⟩
    rw [hrun] at h1 hok
    cases r with
    | error e => simp at hok
    | ok a =>
      simp only at h1
      show ShapeOf w1.impl w1.subs
      rw [h1]
      exact shapeOf_tactil _
  | call h op w _ hen _ ih =>
    have key : ∀ (m : M V Unit) (P : Impl → List Subscription → Prop),
        Triple P m (fun _ => ShapeOf) ShapeOf → P w.impl w.subs → Shape (m w).2 := by
      intro m P ht hP
      have h1 := ht w hP
      rcases hrun : m w with ⟨r, w1⟩
      rw [hrun] at h1
      cases r with
      | error e => exact h1
      | ok a => exact h1
    cases op with
    | enableTask IP port => exact key _ _ (enableTask_shape h IP port) hen
    | onTactilTouched =>
      exact key _ _ (onTactilTouched_shape h) (shape_subscribed_tactil _ _ ih hen)
    | callChild k v m => exact key _ _ (callChild_shape h k v m) ⟨ih, hen⟩
    | endSession => exact key _ _ (endSession_shape h) ⟨ih, hen⟩

theorem shape_count_le_one (i : Impl) (s : List Subscription) (hs : ShapeOf i s)
    (name : String) : s.countP (fun x => x.event == name) ≤ 1 := by
  rcases hs with rfl | rfl | ⟨ep, hep, rfl | rfl | rfl | rfl⟩
  · simp
  · exact (List.countP_le_length _).trans (by simp)
  · exact (List.countP_le_length _).trans (by simp)
  · exact (List.countP_le_length _).trans (by simp)
  · by_cases h1 : name = "CallChild"
    · subst h1; simp [subCallChild, subEndSession, List.countP_cons]
    · have : ¬ "CallChild" = name := fun h => h1 h.symm
      simp [subCallChild, subEndSession, List.countP_cons, this]
      split <;> simp
  · by_cases h1 : name = "CallChild"
    · subst h1; simp [subCallChild, subEndSession, List.countP_cons]
    · have : ¬ "CallChild" = name := fun h => h1 h.symm
      simp [subCallChild, subEndSession, List.countP_cons, this]
      split <;> simp

/-- C4, as amended: along runs from the constructed module in which every
callback is dispatched while the module is subscribed to the event that
triggers it, and `enableTask` is called only while the module holds no
subscription, no event name ever has more than one subscription, whatever
calls the host lets fail. -/
theorem dispatched_single_subscription {V : Type} (w : World V) (hw : Dispatched w)
    (name : String) : subscriptionCount name w ≤ 1 :=
  shape_count_le_one w.impl w.subs (dispatched_shape w hw) name

/-! ## Runs on a host that does not fail -/

theorem perm_pair {α : Type} {l : List α} {a b : α} (h : l.Perm [a, b]) :
    l = [a, b] ∨ l = [b, a] := by
  have hlen : l.length = 2 := by simpa using h.length_eq
  match l, hlen with
  | [x, y], _ =>
    have hx : x ∈ [a, b] := h.subset (List.mem_cons_self _ _)
    simp only [List.mem_cons, List.mem_singleton, List.not_mem_nil, or_false] at hx
    rcases hx with rfl | rfl
    · have h2 : [y].Perm [b] := (List.perm_cons x).mp h
      rw [List.perm_singleton.mp h2]
      exact Or.inl rfl
    · have h2 : [y].Perm [a] := (List.perm_cons x).mp (h.trans (List.Perm.swap _ _ _))
      rw [List.perm_singleton.mp h2]
      exact Or.inr rfl

/-- `onTactilTouched` on a host that does not fail. -/
theorem onTactilTouched_quiet {V : Type} (h : Host V) (w : World V) (hok : NoFailure h)
    (hmp : w.impl.memoryProxy = true) :
    onTactilTouched h w = (Except.ok (),
      { impl := { w.impl with
                  remoteIP := (extractConfig h.config w.impl.remoteIP w.impl.remotePort).1
                  remotePort := (extractConfig h.config w.impl.remoteIP w.impl.remotePort).2
                  memoryProxyRemote :=
                    some (extractConfig h.config w.impl.remoteIP w.impl.remotePort) }
        subs := (w.subs.eraseP (fun s => decide (s.bus = Bus.parent ∧
            s.event = "FrontTactilTouched" ∧ s.module = "Interface")))
          ++ [subCallChild (extractConfig h.config w.impl.remoteIP w.impl.remotePort),
              subEndSession (extractConfig h.config w.impl.remoteIP w.impl.remotePort)]
        trace := w.trace ++
          [HostCall.lock,
           HostCall.unsubscribeToEvent Bus.parent "FrontTactilTouched" "Interface",
           HostCall.log LogLevel.warning "Interface"
             ("Connecting to " ++ (extractConfig h.config w.impl.remoteIP w.impl.remotePort).1
               ++ ":" ++ toString (extractConfig h.config w.impl.remoteIP w.impl.remotePort).2
               ++ "\n"),
           HostCall.newMemoryProxyRemote
             (extractConfig h.config w.impl.remoteIP w.impl.remotePort).1
             (extractConfig h.config w.impl.remoteIP w.impl.remotePort).2,
           HostCall.subscribeToEvent
             (Bus.remote (extractConfig h.config w.impl.remoteIP w.impl.remotePort).1
               (extractConfig h.config w.impl.remoteIP w.impl.remotePort).2)
             "CallChild" "Interface" "callChild",
           HostCall.subscribeToEvent
             (Bus.remote (extractConfig h.config w.impl.remoteIP w.impl.remotePort).1
               (extractConfig h.config w.impl.remoteIP w.impl.remotePort).2)
             "EndSession" "Interface" "endSession",
           HostCall.raiseEvent "StartSession" (h.ofInt 1),
           HostCall.unlock] }) := by
  have hf : ∀ t c, h.fails t c = none := hok
  simp [onTactilTouched, criticalSection, bind, M.bind, viaMemoryProxy, viaMemoryProxyRemote,
    hostCall, hf, hmp, Impl.readConfig, emit, pure, M.pure, setRemote, tryCatch, connectRemote,
    HostCall.effect, subCallChild, subEndSession]

/-- `callChild` on a host that does not fail. -/
theorem callChild_quiet {V : Type} (h : Host V) (key : String) (value msg : V) (w : World V)
    (ep : String × Int) (n : Int) (hok : NoFailure h) (hmp : w.impl.memoryProxy = true)
    (hproxy : w.impl.memoryProxyRemote = some ep) (hconv : h.toInt value = some n) :
    callChild h key value msg w = (Except.ok (),
      { impl := w.impl
        subs := (w.subs.eraseP (fun s => decide (s.bus = Bus.remote ep.1 ep.2 ∧
            s.event = "CallChild" ∧ s.module = "Interface"))) ++ [subCallChild ep]
        trace := w.trace ++ ([HostCall.lock,
           HostCall.unsubscribeToEvent (Bus.remote ep.1 ep.2) "CallChild" "Interface"]
           ++ branchLogs V n ++
           [HostCall.raiseEvent "ChildCalled" value,
            HostCall.subscribeToEvent (Bus.remote ep.1 ep.2) "CallChild" "Interface" "callChild",
            HostCall.unlock]) }) := by
  have hf : ∀ t c, h.fails t c = none := hok
  rw [callChild_eq]
  simp [criticalSection, bind, M.bind, viaMemoryProxyRemote, hproxy, hostCall, hf, toInt, hconv,
    emitAll, viaMemoryProxy, hmp, HostCall.effect, subCallChild]

theorem noFailure_quietHost (config : Option String) : NoFailure (quietHost config) :=
  fun _ _ => rfl

/-! ## Concrete worlds -/

theorem idle_constructedWorld : Idle constructedWorld := ⟨by decide, by decide⟩

theorem inSession_sessionWorld : InSession sessionWorld :=
  ⟨by decide, ("192.168.1.5", 9559), by decide,
    (by decide : sessionWorld.subs
      = [subCallChild ("192.168.1.5", 9559), subEndSession ("192.168.1.5", 9559)]) ▸
      List.Perm.refl _⟩

/-- C1 at a concrete call: in a session, value 1 takes the name-call branch. -/
theorem callChild_branch_witness :
    sessionWorld.impl.memoryProxyRemote = some ("192.168.1.5", 9559) ∧
    nameLog Int ∈ issued sessionWorld (callChild (quietHost none) "CallChild" 1 0 sessionWorld).2 ∧
    callLog Int ∈ issued sessionWorld (callChild (quietHost none) "CallChild" 1 0 sessionWorld).2 ∧
    phraseLog Int ∉
      issued sessionWorld (callChild (quietHost none) "CallChild" 1 0 sessionWorld).2 :=
  ⟨by decide,
    (callChild_branch (quietHost none) "CallChild" 1 0 sessionWorld ("192.168.1.5", 9559) 1
      (by decide) rfl rfl).1 rfl⟩

/-- C2: from the idle state, an `onTactilTouched` call in which no host call
fails and which finds a well-formed config file returns normally, leaves no
subscription to `FrontTactilTouched`, leaves exactly the subscriptions to
`CallChild` (callback `callChild`) and `EndSession` (callback `endSession`) on
the remote memory, with the stored endpoint and the remote proxy equal to what
the config file holds, and raises `StartSession` exactly once, with value 1. -/
theorem onTactilTouched_starts_session {V : Type} (h : Host V) (w : World V)
    (lead ip ws sign digits rest : List Char)
    (hidle : Idle w) (hok : NoFailure h)
    (hfile : h.config = some (String.mk (lead ++ ip ++ ws ++ sign ++ digits ++ rest)))
    (hwf : WellFormed lead ip ws sign digits rest) :
    (onTactilTouched h w).1 = Except.ok () ∧
    subscriptionCount "FrontTactilTouched" (onTactilTouched h w).2 = 0 ∧
    (onTactilTouched h w).2.subs
      = [subCallChild (String.mk ip, portValue sign digits),
         subEndSession (String.mk ip, portValue sign digits)] ∧
    endpoint (onTactilTouched h w).2 = (String.mk ip, portValue sign digits) ∧
    (onTactilTouched h w).2.impl.memoryProxyRemote
      = some (String.mk ip, portValue sign digits) ∧
    raised (issued w (onTactilTouched h w).2) = [("StartSession", h.ofInt 1)] := by
  have hx := extractConfig_wellFormed lead ip ws sign digits rest w.impl.remoteIP
    w.impl.remotePort hwf
  rw [← hfile] at hx
  rw [onTactilTouched_quiet h w hok hidle.1, hx]
  simp [hidle.2, subTactil, subscriptionCount, subCallChild, subEndSession, endpoint, issued,
    raised]

/-- C2 at a concrete call: the constructed module and a config file naming
192.168.1.5, port 9559. -/
theorem onTactilTouched_starts_session_witness :
    Idle constructedWorld ∧ NoFailure (quietHost (some " 192.168.1.5 \t\n9559\n")) ∧
    WellFormed [' '] "192.168.1.5".toList [' ', Char.ofNat 9, Char.ofNat 10] [] "9559".toList
      [Char.ofNat 10] ∧
    (onTactilTouched (quietHost (some " 192.168.1.5 \t\n9559\n")) constructedWorld).2.subs
      = [subCallChild ("192.168.1.5", 9559), subEndSession ("192.168.1.5", 9559)] ∧
    raised (issued constructedWorld
      (onTactilTouched (quietHost (some " 192.168.1.5 \t\n9559\n")) constructedWorld).2)
      = [("StartSession", 1)] :=
  have key := onTactilTouched_starts_session (quietHost (some " 192.168.1.5 \t\n9559\n"))
    constructedWorld [' '] "192.168.1.5".toList [' ', Char.ofNat 9, Char.ofNat 10] []
    "9559".toList [Char.ofNat 10] idle_constructedWorld (noFailure_quietHost _) rfl
    wellFormed_example
  ⟨idle_constructedWorld, noFailure_quietHost _, wellFormed_example, key.2.2.1, key.2.2.2.2.2⟩

/-- C4 as stated fails: `enableTask` right after construction is a reachable
state with two subscriptions to `FrontTactilTouched`. -/
theorem reachable_double_subscription :
    Reachable (enableTask (quietHost none) "10.0.0.1" 9559 constructedWorld).2 ∧
    subscriptionCount "FrontTactilTouched"
      (enableTask (quietHost none) "10.0.0.1" 9559 constructedWorld).2 = 2 :=
  ⟨Reachable.call (quietHost none) (Op.enableTask "10.0.0.1" 9559) constructedWorld
      (Reachable.constructed (quietHost none) 0 (by decide)) (by decide),
    by decide⟩

/-- C4, amended, at a concrete state: the session opened by touching the
constructed module holds one subscription to `CallChild`. -/
theorem dispatched_single_subscription_witness :
    Dispatched sessionWorld ∧ subscriptionCount "CallChild" sessionWorld ≤ 1 :=
  have hd : Dispatched sessionWorld :=
    Dispatched.call (quietHost (some "192.168.1.5\n9559\n")) Op.onTactilTouched constructedWorld
      (Dispatched.constructed (quietHost none) 0 (by decide))
      (show 0 < subscriptionCount "FrontTactilTouched" constructedWorld by decide) (by decide)
  ⟨hd, dispatched_single_subscription sessionWorld hd "CallChild"⟩

/-- C5 as stated fails: after `enableTask` set the endpoint to 10.0.0.1:9559,
`onTactilTouched` replaces it by the one in the config file. -/
theorem onTactilTouched_overwrites_endpoint :
    endpoint (enableTask (quietHost none) "10.0.0.1" 9559 constructedWorld).2
      = ("10.0.0.1", 9559) ∧
    endpoint (onTactilTouched (quietHost (some "192.168.1.5\n9559\n"))
        (enableTask (quietHost none) "10.0.0.1" 9559 constructedWorld).2).2
      = ("192.168.1.5", 9559) := by
  constructor <;> decide

theorem endpoint_criticalSection {V : Type} (body : M V Unit) (w : World V) :
    endpoint (criticalSection body w).2
      = endpoint (body { w with trace := w.trace ++ [HostCall.lock] }).2 := by
  unfold criticalSection
  rcases body { w with trace := w.trace ++ [HostCall.lock] } with ⟨r, w1⟩
  rcases r with (e | e) | a <;> rfl

/-- C5, as amended: `enableTask(IP, port)` leaves the stored endpoint equal to
`(IP, port)`; `callChild` and `endSession` leave it unchanged; and
`onTactilTouched`, once its first call (the unsubscription from
`FrontTactilTouched`) has returned, overwrites it with what `readConfig` reads
from the config file, and leaves it unchanged when that call does not
return. -/
theorem endpoint_writers {V : Type} (h : Host V) (IP : String) (port : Int) (key : String)
    (value msg : V) (w : World V) :
    endpoint (enableTask h IP port w).2 = (IP, port) ∧
    endpoint (callChild h key value msg w).2 = endpoint w ∧
    endpoint (endSession h w).2 = endpoint w ∧
    endpoint (onTactilTouched h w).2 =
      if w.impl.memoryProxy = true ∧
          h.fails (w.trace ++ [HostCall.lock])
            (HostCall.unsubscribeToEvent Bus.parent "FrontTactilTouched" "Interface") = none
      then extractConfig h.config w.impl.remoteIP w.impl.remotePort
      else endpoint w := by
  refine ⟨?_, keeps_callChild h key value msg w, keeps_endSession h w, ?_⟩
  · unfold enableTask
    rw [bind_ok (rfl : setRemote IP port w = (Except.ok (), _))]
    exact keeps_connect_and_after h _ (keeps_viaMemoryProxy _ _) _
  · unfold onTactilTouched
    rw [endpoint_criticalSection]
    split
    · rename_i hc
      obtain ⟨hmp, hf⟩ := hc
      have e1 : viaMemoryProxy h
          (HostCall.unsubscribeToEvent Bus.parent "FrontTactilTouched" "Interface")
          { w with trace := w.trace ++ [HostCall.lock] }
          = (Except.ok (), { impl := w.impl
                             subs := (HostCall.unsubscribeToEvent Bus.parent
                               "FrontTactilTouched" "Interface" : HostCall V).effect w.subs
                             trace := w.trace ++ [HostCall.lock] ++
                               [HostCall.unsubscribeToEvent Bus.parent "FrontTactilTouched"
                                 "Interface"] }) := by
        simp [viaMemoryProxy, hmp, hostCall, hf]
      rw [bind_ok e1]
      rw [bind_ok (x := fun w1 : World V =>
        Impl.readConfig h w1.impl.remoteIP w1.impl.remotePort w1) rfl]
      rw [bind_ok (rfl : setRemote _ _ _ = (Except.ok (), _))]
      exact keeps_connect_and_after h _
        (keeps_bind _ _
          (keeps_tryCatch _ _
            (keeps_bind _ _ (keeps_viaMemoryProxyRemote _ _)
              (fun _ => keeps_viaMemoryProxyRemote _ _))
            (fun _ => keeps_emit _))
          (fun _ => keeps_viaMemoryProxy _ _)) _
    · rename_i hc
      have e1 : ∃ e, viaMemoryProxy h
          (HostCall.unsubscribeToEvent Bus.parent "FrontTactilTouched" "Interface")
          { w with trace := w.trace ++ [HostCall.lock] }
          = (Except.error e, { w with trace := w.trace ++ [HostCall.lock] }) ∨
          viaMemoryProxy h
          (HostCall.unsubscribeToEvent Bus.parent "FrontTactilTouched" "Interface")
          { w with trace := w.trace ++ [HostCall.lock] }
          = (Except.error e, { w with trace := w.trace ++ [HostCall.lock] ++
              [HostCall.unsubscribeToEvent Bus.parent "FrontTactilTouched" "Interface"] }) := by
        cases hmp : w.impl.memoryProxy with
        | false => exact ⟨Fault.nullPointer, Or.inl (by simp [viaMemoryProxy, hmp])⟩
        | true =>
          cases hf : h.fails (w.trace ++ [HostCall.lock])
            (HostCall.unsubscribeToEvent Bus.parent "FrontTactilTouched" "Interface") with
          | none => exact absurd ⟨hmp, hf⟩ hc
          | some what =>
            exact ⟨Fault.alError what, Or.inr (by simp [viaMemoryProxy, hmp, hostCall, hf])⟩
      obtain ⟨e, he | he⟩ := e1
      · rw [bind_error he]; rfl
      · rw [bind_error he]; rfl

/-- C6 fails on the code: an `AL::ALError` thrown by a host call outside the
`try` blocks reaches the caller. With a host whose `unsubscribeToEvent` throws,
`callChild`, `onTactilTouched` and `endSession` end with that error; with one
whose `subscribeToEvent` throws, so do `enableTask` and `callChild`. The same
`subscribeToEvent` failure is caught inside `onTactilTouched`, which returns
normally. -/
theorem host_error_escapes :
    (callChild (faultyHost HostCall.isUnsubscribe) "CallChild" 1 0 sessionWorld).1
      = Except.error (Fault.alError "failed") ∧
    (onTactilTouched (faultyHost HostCall.isUnsubscribe) constructedWorld).1
      = Except.error (Fault.alError "failed") ∧
    (endSession (faultyHost HostCall.isUnsubscribe) sessionWorld).1
      = Except.error (Fault.alError "failed") ∧
    (enableTask (faultyHost HostCall.isSubscribe) "192.168.1.5" 9559 constructedWorld).1
      = Except.error (Fault.alError "failed") ∧
    (callChild (faultyHost HostCall.isSubscribe) "CallChild" 1 0 sessionWorld).1
      = Except.error (Fault.alError "failed") ∧
    (onTactilTouched (faultyHost HostCall.isSubscribe) constructedWorld).1 = Except.ok () := by
  refine ⟨?_, ?_, ?_, ?_, ?_, ?_⟩ <;> decide

/-- C7 fails on the code: `callChild` never reaches the audio player or the
behaviour manager. Whatever the host, the value and the state, no `playFile`
and no `runBehavior` call is among the calls it issues; in a session, with
value 1 and with value 2, the calls issued are exactly the ones listed. -/
theorem callChild_issues_no_playback :
    (∀ (V : Type) (h : Host V) (key : String) (value msg : V) (w : World V),
      ∀ c ∈ issued w (callChild h key value msg w).2, c.isPlayback = false) ∧
    issued sessionWorld (callChild (quietHost none) "CallChild" 1 0 sessionWorld).2
      = [HostCall.lock,
         HostCall.unsubscribeToEvent (Bus.remote "192.168.1.5" 9559) "CallChild" "Interface",
         HostCall.log LogLevel.verbose "Interface" "Calling with name\n",
         HostCall.log LogLevel.warning "Interface" "Calling\n",
         HostCall.raiseEvent "ChildCalled" 1,
         HostCall.subscribeToEvent (Bus.remote "192.168.1.5" 9559) "CallChild" "Interface"
           "callChild",
         HostCall.unlock] ∧
    issued sessionWorld (callChild (quietHost none) "CallChild" 2 0 sessionWorld).2
      = [HostCall.lock,
         HostCall.unsubscribeToEvent (Bus.remote "192.168.1.5" 9559) "CallChild" "Interface",
         HostCall.log LogLevel.verbose "Interface" "Calling with special phrase\n",
         HostCall.raiseEvent "ChildCalled" 2,
         HostCall.subscribeToEvent (Bus.remote "192.168.1.5" 9559) "CallChild" "Interface"
           "callChild",
         HostCall.unlock] := by
  refine ⟨?_, by decide, by decide⟩
  intro V h key value msg w
  obtain ⟨body, hbody, hemits⟩ := callChild_body (fun c : HostCall V => c.isPlayback = false)
    h key value msg (fun _ _ _ => rfl) (fun _ _ _ _ => rfl) (fun _ _ _ => rfl) (fun _ _ => rfl)
  obtain ⟨d, hd, hP⟩ := emits_criticalSection _ body hemits rfl rfl w
  rw [hbody, issued_append w _ d hd]
  exact hP

/-- C9 as stated fails: `enableTask` changes the stored endpoint and the remote
proxy without taking the callback mutex. -/
theorem enableTask_without_mutex :
    ¬ HoldsMutex (enableTask (quietHost none) "10.0.0.1" 9559) constructedWorld ∧
    endpoint (enableTask (quietHost none) "10.0.0.1" 9559 constructedWorld).2
      ≠ endpoint constructedWorld := by
  refine ⟨?_, by decide⟩
  have hiss : issued constructedWorld
      (enableTask (quietHost none) "10.0.0.1" 9559 constructedWorld).2
      = [HostCall.newMemoryProxyRemote "10.0.0.1" 9559,
         HostCall.subscribeToEvent Bus.parent "FrontTactilTouched" "Interface"
           "onTactilTouched"] := by decide
  rintro ⟨d, _, ⟨_, h1⟩ | ⟨_, h1⟩⟩
  · rw [hiss] at h1
    simp at h1
  · rw [hiss] at h1
    simp at h1

theorem holdsMutex_of_body {V : Type} (m body : M V Unit) (w : World V)
    (hm : m = criticalSection body) (hb : Emits (fun c : HostCall V => c.isMutex = false) body) :
    HoldsMutex m w := by
  subst hm
  exact criticalSection_bracket _ body hb w

/-- C9, as amended: each of the three callbacks `onTactilTouched`, `callChild`
and `endSession` takes the callback mutex before anything else and releases it
last (unless a null pointer ends the run), with no mutex call in between;
`enableTask` issues no mutex call at all. -/
theorem callbacks_hold_mutex {V : Type} (h : Host V) (IP : String) (port : Int) (key : String)
    (value msg : V) (w : World V) :
    HoldsMutex (onTactilTouched h) w ∧
    HoldsMutex (callChild h key value msg) w ∧
    HoldsMutex (endSession h) w ∧
    ∀ c ∈ issued w (enableTask h IP port w).2, c.isMutex = false := by
  refine ⟨?_, ?_, ?_, ?_⟩
  · obtain ⟨body, hbody, hemits⟩ := onTactilTouched_body (fun c : HostCall V => c.isMutex = false)
      h (fun _ _ _ => rfl) (fun _ _ => rfl) (fun _ _ _ _ => rfl) (fun _ _ _ => rfl)
      (fun _ _ => rfl)
    exact holdsMutex_of_body _ body w hbody hemits
  · obtain ⟨body, hbody, hemits⟩ := callChild_body (fun c : HostCall V => c.isMutex = false)
      h key value msg (fun _ _ _ => rfl) (fun _ _ _ _ => rfl) (fun _ _ _ => rfl) (fun _ _ => rfl)
    exact holdsMutex_of_body _ body w hbody hemits
  · obtain ⟨body, hbody, hemits⟩ := endSession_body (fun c : HostCall V => c.isMutex = false)
      h (fun _ _ _ => rfl) (fun _ _ _ _ => rfl) (fun _ _ _ => rfl)
    exact holdsMutex_of_body _ body w hbody hemits
  · obtain ⟨d, hd, hP⟩ := emits_enableTask (fun c : HostCall V => c.isMutex = false) h IP port
      (fun _ _ _ => rfl) (fun _ _ => rfl) (fun _ _ _ _ => rfl) w
    rw [issued_append w _ d hd]
    exact hP

/-- C10: in a session, a `callChild` call in which no host call fails (the
conversion of the value included) returns normally, raises `ChildCalled`
exactly once and with the value it received, whatever that value is, leaves
the subscriptions the same up to order and the module data (the remote endpoint
among them) unchanged; apart from log lines it issues exactly: the mutex lock,
the unsubscription from `CallChild`, the `raiseEvent`, the subscription to
`CallChild` with callback `callChild`, and the mutex unlock. -/
theorem callChild_frame {V : Type} (h : Host V) (key : String) (value msg : V) (w : World V)
    (n : Int) (hsess : InSession w) (hok : NoFailure h) (hconv : h.toInt value = some n) :
    (callChild h key value msg w).1 = Except.ok () ∧
    raised (issued w (callChild h key value msg w).2) = [("ChildCalled", value)] ∧
    (callChild h key value msg w).2.subs.Perm w.subs ∧
    (callChild h key value msg w).2.impl = w.impl ∧
    ∃ ep, w.impl.memoryProxyRemote = some ep ∧
      (issued w (callChild h key value msg w).2).filter (fun c => !c.isLog)
        = [HostCall.lock,
           HostCall.unsubscribeToEvent (Bus.remote ep.1 ep.2) "CallChild" "Interface",
           HostCall.raiseEvent "ChildCalled" value,
           HostCall.subscribeToEvent (Bus.remote ep.1 ep.2) "CallChild" "Interface" "callChild",
           HostCall.unlock] := by
  obtain ⟨hmp, ep, hproxy, hperm⟩ := hsess
  rw [callChild_quiet h key value msg w ep n hok hmp hproxy hconv]
  have hlogs : branchLogs V n = [nameLog V, callLog V] ∨ branchLogs V n = [phraseLog V] ∨
      branchLogs V n = [] := by
    unfold branchLogs
    split
    · exact Or.inl rfl
    · split
      · exact Or.inr (Or.inl rfl)
      · exact Or.inr (Or.inr rfl)
  refine ⟨rfl, ?_, ?_, rfl, ep, hproxy, ?_⟩
  · rcases hlogs with hl | hl | hl <;>
      simp [issued, hl, raised, nameLog, callLog, phraseLog]
  · rcases perm_pair hperm with hs | hs
    · rw [hs]
      simp only [subCallChild, subEndSession]
      simp
      exact List.Perm.swap _ _ _
    · rw [hs]
      simp [subCallChild, subEndSession]
  · rcases hlogs with hl | hl | hl <;>
      simp [issued, hl, HostCall.isLog, nameLog, callLog, phraseLog]

/-- C10 at a concrete call: in the session with 192.168.1.5:9559, value 7 is
passed on unchanged. -/
theorem callChild_frame_witness :
    InSession sessionWorld ∧ NoFailure (quietHost none) ∧
    raised (issued sessionWorld (callChild (quietHost none) "CallChild" 7 0 sessionWorld).2)
      = [("ChildCalled", 7)] ∧
    (callChild (quietHost none) "CallChild" 7 0 sessionWorld).2.subs.Perm sessionWorld.subs :=
  have key := callChild_frame (quietHost none) "CallChild" 7 0 sessionWorld 7
    inSession_sessionWorld (noFailure_quietHost _) rfl
  ⟨inSession_sessionWorld, noFailure_quietHost _, key.2.1, key.2.2.1⟩


end Interface
